import Mathlib

/-!
Shallow embedding of `src/model.ts` of the inelastic-housing-growth repository,
together with proofs settling the frozen claims about it.

The source is TypeScript operating on IEEE doubles with `Math.log` / `Math.exp` /
`Math.sqrt`; the embedding reads the same formulas over the real numbers `ℝ`
(so the definitions are noncomputable where the source calls transcendental
functions).  JavaScript's `NaN` sentinel produced by the two explicit
`ownerCount > 0 ? _ : NaN` ternaries is embedded as `Option.none`, since `ℝ` has
no `NaN`; everything else is a direct transcription.  Array mutation in loops is
embedded as folds over `List.range`, and `Array.prototype.sort` (a stable
comparison sort) as `List.insertionSort` with the comparator's ordering.
-/

namespace InelasticHousing

noncomputable section

/-- Configuration record, mirroring the `ModelParams` interface of the source. -/
structure ModelParams where
  popGrowthRate : ℝ
  techGrowthRate : ℝ
  housingGrowthRate : ℝ
  inequality : ℝ
  beta : ℝ
  initialTech : ℝ
  initialPop : ℝ
  initialHousing : ℝ

/-- Standard normal inverse CDF, Beasley-Springer-Moro approximation, transcribed
from `probit` in the source with its exact decimal constants. -/
def probit (p : ℝ) : ℝ :=
  if p ≤ 0 ∨ 1 ≤ p then 0
  else
    let a1 : ℝ := -3.969683028665376e+01
    let a2 : ℝ := 2.209460984245205e+02
    let a3 : ℝ := -2.759285104469687e+02
    let a4 : ℝ := 1.383577518672690e+02
    let a5 : ℝ := -3.066479806614716e+01
    let a6 : ℝ := 2.506628277459239e+00
    let b1 : ℝ := -5.447609879822406e+01
    let b2 : ℝ := 1.615858368580409e+02
    let b3 : ℝ := -1.556989798598866e+02
    let b4 : ℝ := 6.680131188771972e+01
    let b5 : ℝ := -1.328068155288572e+01
    let c1 : ℝ := -7.784894002430293e-03
    let c2 : ℝ := -3.223964580411365e-01
    let c3 : ℝ := -2.400758277161838e+00
    let c4 : ℝ := -2.549732539343734e+00
    let c5 : ℝ := 4.374664141464968e+00
    let c6 : ℝ := 2.938163982698783e+00
    let d1 : ℝ := 7.784695709041462e-03
    let d2 : ℝ := 3.224671290700398e-01
    let d3 : ℝ := 2.445134137142996e+00
    let d4 : ℝ := 3.754408661907416e+00
    let p_low : ℝ := 0.02425
    let p_high : ℝ := 1 - p_low
    if p < p_low then
      let q := Real.sqrt (-2 * Real.log p)
      (((((c1 * q + c2) * q + c3) * q + c4) * q + c5) * q + c6) /
        ((((d1 * q + d2) * q + d3) * q + d4) * q + 1)
    else if p ≤ p_high then
      let q := p - 0.5
      let r := q * q
      (((((a1 * r + a2) * r + a3) * r + a4) * r + a5) * r + a6) * q /
        (((((b1 * r + b2) * r + b3) * r + b4) * r + b5) * r + 1)
    else
      let q := Real.sqrt (-2 * Real.log (1 - p))
      (0 : ℝ) - (((((c1 * q + c2) * q + c3) * q + c4) * q + c5) * q + c6) /
        ((((d1 * q + d2) * q + d3) * q + d4) * q + 1)

/-- Hard-coded horizon: `const SIMULATION_STEPS = 10` in the source. -/
def SIMULATION_STEPS : ℕ := 10

/-- Hard-coded cross-section size: `const AGENTS_COUNT = 1000` in the source. -/
def AGENTS_COUNT : ℕ := 1000

/-- Hard-coded utility bonus of owning: `const ALPHA = 1` in the source. -/
def ALPHA : ℝ := 1

/-- Hard-coded outer iteration budget: `const MAX_ITER = 20` in the source. -/
def MAX_ITER : ℕ := 20

/-- Deterministic quantile draws of idiosyncratic productivity
(`productivities` array built at the top of `simulate`). -/
def productivities (params : ModelParams) : List ℝ :=
  (List.range AGENTS_COUNT).map fun i : ℕ =>
    Real.exp (params.inequality * probit (((i : ℝ) + 0.5) / (AGENTS_COUNT : ℝ)))

/-- Aggregate population at period `t`: `N_t = initialPop * (1+popGrowthRate)^t`. -/
def N_t (params : ModelParams) (t : ℕ) : ℝ :=
  params.initialPop * (1 + params.popGrowthRate) ^ t

/-- Housing stock at period `t`: `H_t = initialHousing * (1+housingGrowthRate)^t`. -/
def H_t (params : ModelParams) (t : ℕ) : ℝ :=
  params.initialHousing * (1 + params.housingGrowthRate) ^ t

/-- Aggregate technology at period `t`: `A_t = initialTech * (1+techGrowthRate)^t`. -/
def A_t (params : ModelParams) (t : ℕ) : ℝ :=
  params.initialTech * (1 + params.techGrowthRate) ^ t

/-- Renter's optimal savings `s_rent = beta * y / (1 + beta)`. -/
def sRent (beta y : ℝ) : ℝ := beta * y / (1 + beta)

/-- Renting baseline utility `u_rent = log(y - s_rent) + beta * log(s_rent)`. -/
def uRent (beta y : ℝ) : ℝ :=
  Real.log (y - sRent beta y) + beta * Real.log (sRent beta y)

/-- One iteration of the WTP bisection loop body, acting on the state
`(low, high, wtp)`; a direct transcription of the `for(let b=0; b<15; b++)`
body in the source (both occurrences are textually identical). -/
def wtpStep (beta Pnext y urent : ℝ) (st : ℝ × ℝ × ℝ) : ℝ × ℝ × ℝ :=
  let low := st.1
  let high := st.2.1
  let wtp := st.2.2
  let P := (low + high) / 2
  let s0 := (beta * (y - P) - Pnext) / (1 + beta)
  let s := if s0 < 0 then 0 else s0
  if y - P - s ≤ 0 then (low, P, wtp)
  else if urent < Real.log (y - P - s) + beta * Real.log (s + Pnext) + ALPHA then
    (P, high, P)
  else (low, P, wtp)

/-- `n`-fold application of the bisection loop body. -/
def wtpIter (beta Pnext y urent : ℝ) : ℕ → ℝ × ℝ × ℝ → ℝ × ℝ × ℝ
  | 0, st => st
  | n + 1, st => wtpIter beta Pnext y urent n (wtpStep beta Pnext y urent st)

/-- The WTP bisection solver: 15 halvings of `[0, y]` starting from `wtp = 0`,
returning the final `wtp` accumulator, as in the source. -/
def wtpSolve (beta Pnext y : ℝ) : ℝ :=
  (wtpIter beta Pnext y (uRent beta y) 15 (0, y, 0)).2.2

/-- Descending sort, embedding `wtps.sort((a, b) => b - a)`. -/
def sortDesc (l : List ℝ) : List ℝ := l.insertionSort fun a b => a ≥ b

/-- Units available to the cross-section:
`Math.floor(Math.min(1, H/N) * AGENTS_COUNT)`. -/
def availUnits (H N : ℝ) (M : ℕ) : ℤ := ⌊min 1 (H / N) * (M : ℝ)⌋

/-- Per-period available units as computed in both the solver loop
(`housesAvailable`) and the aggregator (`numOwners`). -/
def housesAvailableAt (params : ModelParams) (t : ℕ) : ℤ :=
  availUnits (H_t params t) (N_t params t) AGENTS_COUNT

/-- Cross-section WTP list for period `t` against a candidate next-period
price, as built inside the solver loop. -/
def wtpsAt (params : ModelParams) (t : ℕ) (Pnext : ℝ) : List ℝ :=
  (productivities params).map fun a => wtpSolve params.beta Pnext (A_t params t * a)

/-- Market clearing rule of the source: sort WTPs descending; if any units are
available the price is the entry at index `housesAvailable - 1`, clamped to the
last index; otherwise the price is `0`. -/
def clearPrice (wtps : List ℝ) (housesAvailable : ℤ) : ℝ :=
  if 0 < housesAvailable then
    let sorted := sortDesc wtps
    let priceIndex : ℤ := housesAvailable - 1
    let priceIndex := if (sorted.length : ℤ) ≤ priceIndex then (sorted.length : ℤ) - 1
      else priceIndex
    sorted.getD priceIndex.toNat 0
  else 0

/-- The clearing price newly proposed for period `t` from WTPs computed against
the candidate next-period price `Pnext` (`newPrice` in the solver loop). -/
def proposedPrice (params : ModelParams) (t : ℕ) (Pnext : ℝ) : ℝ :=
  clearPrice (wtpsAt params t Pnext) (housesAvailableAt params t)

/-- One outer iteration of the price-path solver: returns the updated price
vector and the iteration's `maxDiff`.  The terminal entry is set first by
extrapolation, then periods `0 .. SIMULATION_STEPS-2` are updated by the damped
blend; every read is from the input snapshot `prices`, as in the source. -/
def priceIter (params : ModelParams) (prices : List ℝ) : List ℝ × ℝ :=
  let lastT := SIMULATION_STEPS - 1
  let start := prices.set lastT (prices.getD (lastT - 1) 0 * (1 + params.techGrowthRate))
  (List.range (SIMULATION_STEPS - 1)).foldl
    (fun st t =>
      let newP := 0.5 * prices.getD t 0 + 0.5 * proposedPrice params t (prices.getD (t + 1) 0)
      (st.1.set t newP, max st.2 |newP - prices.getD t 0|))
    (start, 0)

/-- The outer loop: run up to `n` iterations, stopping early after an
iteration whose `maxDiff` fell below the `0.01` tolerance. -/
def solveLoop (params : ModelParams) : ℕ → List ℝ → List ℝ
  | 0, prices => prices
  | n + 1, prices =>
    let r := priceIter params prices
    if r.2 < 0.01 then r.1 else solveLoop params n r.1

/-- The heuristic starting price path:
every entry `initialTech * initialPop * 0.1`. -/
def initPrices (params : ModelParams) : List ℝ :=
  List.replicate SIMULATION_STEPS (params.initialTech * params.initialPop * 0.1)

/-- The equilibrium price path used by the aggregator: at most `MAX_ITER`
damped iterations from the heuristic start. -/
def eqPrices (params : ModelParams) : List ℝ :=
  solveLoop params MAX_ITER (initPrices params)

/-- Ephemeral per-household record used by the aggregator
(`{ i, y, wtp, u_rent }` in the source). -/
structure Agent where
  i : ℕ
  y : ℝ
  wtp : ℝ
  urent : ℝ

/-- The aggregator's unsorted agent list for period `t`, with WTPs recomputed
against the price `Pnext`. -/
def aggAgents (params : ModelParams) (t : ℕ) (Pnext : ℝ) : List Agent :=
  (productivities params).enum.map fun q =>
    let y := A_t params t * q.2
    { i := q.1, y := y, wtp := wtpSolve params.beta Pnext y, urent := uRent params.beta y }

instance : DecidableRel fun a b : Agent => b.wtp ≤ a.wtp :=
  fun _ _ => Real.decidableLE _ _

/-- The aggregator's agent list sorted by WTP descending
(`agents.sort((a, b) => b.wtp - a.wtp)`). -/
def sortedAgentsAt (params : ModelParams) (t : ℕ) (Pnext : ℝ) : List Agent :=
  (aggAgents params t Pnext).insertionSort fun a b => b.wtp ≤ a.wtp

/-- Realized consumption-when-young, consumption-when-old and lifetime utility
of one agent, by tenure, as computed in the aggregator loop. -/
def agentOutcome (beta Pt Pnext : ℝ) (own : Bool) (ag : Agent) : ℝ × ℝ × ℝ :=
  if own then
    let s0 := (beta * (ag.y - Pt) - Pnext) / (1 + beta)
    let s := if s0 < 0 then 0 else s0
    (ag.y - Pt - s, s + Pnext,
      Real.log (ag.y - Pt - s) + beta * Real.log (s + Pnext) + ALPHA)
  else
    let s := beta * ag.y / (1 + beta)
    (ag.y - s, s, ag.urent)

/-- The aggregator's per-agent pass for period `t` at the equilibrium prices:
each sorted agent is tagged with its ownership flag (`i < numOwners`) and its
realized outcome triple. -/
def outcomesAt (params : ModelParams) (prices : List ℝ) (t : ℕ) :
    List (Bool × (ℝ × ℝ × ℝ)) :=
  (sortedAgentsAt params t (prices.getD (t + 1) 0)).enum.map fun q =>
    let own : Bool := decide ((q.1 : ℤ) < housesAvailableAt params t)
    (own, agentOutcome params.beta (prices.getD t 0) (prices.getD (t + 1) 0) own q.2)

/-- The aggregator's `ownerCount` accumulator. -/
def aggOwnerCount (params : ModelParams) (prices : List ℝ) (t : ℕ) : ℕ :=
  (outcomesAt params prices t).countP fun q => q.1

/-- The aggregator's `incomeSum` accumulator. -/
def incomeSumAt (params : ModelParams) (t : ℕ) : ℝ :=
  ((productivities params).map fun a => A_t params t * a).sum

/-- The aggregator's `agentUtilities` array, sorted ascending for percentiles. -/
def utilSortedAt (params : ModelParams) (prices : List ℝ) (t : ℕ) : List ℝ :=
  List.insertionSort (fun a b : ℝ => a ≤ b)
    ((outcomesAt params prices t).map fun q => q.2.2.2)

/-- Percentile index `Math.floor(q * AGENTS_COUNT)`. -/
def pIdx (q : ℝ) : ℕ := (⌊q * (AGENTS_COUNT : ℝ)⌋).toNat

/-- Empty string used as the out-of-range default for the generation names. -/
def noName : String := ""

/-- The fixed generation labels of the source. -/
def genNames : List String := ["Boomers", "Millennials", "Gen Alpha"]

/-- Output record, mirroring the `GenerationResult` interface of the source
field for field.  `avgUtilityOwners` / `avgUtilityRenters` are `Option ℝ`,
with `none` embedding the `NaN` sentinel of the two explicit ternaries. -/
structure GenerationResult where
  name : String
  time : ℕ
  ownershipRate : ℝ
  priceToIncome : ℝ
  avgLifetimeUtility : ℝ
  avgUtilityOwners : Option ℝ
  avgUtilityRenters : Option ℝ
  utilityP25 : ℝ
  utilityMedian : ℝ
  utilityP75 : ℝ
  avgConsumptionYoung : ℝ
  avgConsumptionOld : ℝ
  housePrice : ℝ
  population : ℝ
  housingStock : ℝ
  incomeMean : ℝ

/-- Default record (used only as the out-of-range default of `List.getD`). -/
def dummyResult : GenerationResult :=
  ⟨noName, 0, 0, 0, 0, none, none, 0, 0, 0, 0, 0, 0, 0, 0, 0⟩

/-- The record the aggregator pushes for reported period `t`. -/
def genResult (params : ModelParams) (prices : List ℝ) (t : ℕ) : GenerationResult :=
  let outs := outcomesAt params prices t
  let ownerCount := aggOwnerCount params prices t
  let totalUtility := (outs.map fun q => q.2.2.2).sum
  let totalUtilityOwners := ((outs.filter fun q => q.1).map fun q => q.2.2.2).sum
  let totalUtilityRenters := ((outs.filter fun q => !q.1).map fun q => q.2.2.2).sum
  let totalConsYoung := (outs.map fun q => q.2.1).sum
  let totalConsOld := (outs.map fun q => q.2.2.1).sum
  let utilSorted := utilSortedAt params prices t
  { name := genNames.getD t noName
    time := t
    ownershipRate := (ownerCount : ℝ) / (AGENTS_COUNT : ℝ)
    priceToIncome := prices.getD t 0 / (incomeSumAt params t / (AGENTS_COUNT : ℝ))
    avgLifetimeUtility := totalUtility / (AGENTS_COUNT : ℝ)
    avgUtilityOwners :=
      if 0 < ownerCount then some (totalUtilityOwners / (ownerCount : ℝ)) else none
    avgUtilityRenters :=
      if 0 < AGENTS_COUNT - ownerCount then
        some (totalUtilityRenters / ((AGENTS_COUNT - ownerCount : ℕ) : ℝ))
      else none
    utilityP25 := utilSorted.getD (pIdx 0.25) 0
    utilityMedian := utilSorted.getD (pIdx 0.50) 0
    utilityP75 := utilSorted.getD (pIdx 0.75) 0
    avgConsumptionYoung := totalConsYoung / (AGENTS_COUNT : ℝ)
    avgConsumptionOld := totalConsOld / (AGENTS_COUNT : ℝ)
    housePrice := prices.getD t 0
    population := N_t params t
    housingStock := H_t params t
    incomeMean := incomeSumAt params t / (AGENTS_COUNT : ℝ) }

/-- The whole solve: equilibrium price path, then one result record per
reported generation `t = 0, 1, 2`. -/
def simulate (params : ModelParams) : List GenerationResult :=
  (List.range 3).map fun t => genResult params (eqPrices params) t

/-- Invariant of the bisection state `(low, high, wtp)`:
`0 ≤ low ≤ high ≤ y` and the `wtp` accumulator equals `low`. -/
def BisectInv (y : ℝ) (st : ℝ × ℝ × ℝ) : Prop :=
  0 ≤ st.1 ∧ st.1 ≤ st.2.1 ∧ st.2.1 ≤ y ∧ st.2.2 = st.1

lemma wtpStep_bisectInv (beta Pnext y urent : ℝ) (st : ℝ × ℝ × ℝ)
    (h : BisectInv y st) : BisectInv y (wtpStep beta Pnext y urent st) := by
  obtain ⟨h0, h1, h2, h3⟩ := h
  unfold wtpStep BisectInv
  dsimp only
  split_ifs <;> refine ⟨?_, ?_, ?_, ?_⟩ <;> dsimp only <;>
    first
    | rfl
    | exact h3
    | linarith

lemma wtpIter_bisectInv (beta Pnext y urent : ℝ) :
    ∀ (n : ℕ) (st : ℝ × ℝ × ℝ), BisectInv y st →
      BisectInv y (wtpIter beta Pnext y urent n st) := by
  intro n
  induction n with
  | zero => intro st h; exact h
  | succ n ih =>
    intro st h
    exact ih _ (wtpStep_bisectInv beta Pnext y urent st h)

/-- Claim C3: for every household with income `y > 0` and every candidate
next-period price, the WTP value produced by the bisection solver satisfies
`0 ≤ WTP ≤ y`. -/
theorem wtpSolve_mem_Icc (beta Pnext y : ℝ) (hy : 0 < y) :
    0 ≤ wtpSolve beta Pnext y ∧ wtpSolve beta Pnext y ≤ y := by
  have h := wtpIter_bisectInv beta Pnext y (uRent beta y) 15 (0, y, 0)
    ⟨le_refl 0, le_of_lt hy, le_refl y, rfl⟩
  obtain ⟨h0, h1, h2, h3⟩ := h
  unfold wtpSolve
  rw [h3]
  exact ⟨h0, le_trans h1 h2⟩

/-- Witness for C3 at the concrete input `beta = 1`, `Pnext = 0`, `y = 1`. -/
theorem wtpSolve_mem_Icc_witness :
    (0 : ℝ) < 1 ∧ (0 ≤ wtpSolve 1 0 1 ∧ wtpSolve 1 0 1 ≤ 1) :=
  ⟨by norm_num, wtpSolve_mem_Icc 1 0 1 (by norm_num)⟩

/-- Claim C2: a result record consists of exactly the sixteen fields of the
source's `GenerationResult` interface — in particular there is no resale-price
field, no income-percentile field and no per-household pair list, so two
records agreeing on these sixteen fields are equal.  (This supports the
`code_bug` verdict: the spec and the repository's own UI callers expect
`housePriceNext`, `incomeP25`, `incomeMedian`, `incomeP75` and
`incomeDistribution`, which `simulate` does not produce.) -/
theorem generationResult_eta (r : GenerationResult) :
    r = { name := r.name, time := r.time, ownershipRate := r.ownershipRate,
          priceToIncome := r.priceToIncome,
          avgLifetimeUtility := r.avgLifetimeUtility,
          avgUtilityOwners := r.avgUtilityOwners,
          avgUtilityRenters := r.avgUtilityRenters,
          utilityP25 := r.utilityP25, utilityMedian := r.utilityMedian,
          utilityP75 := r.utilityP75,
          avgConsumptionYoung := r.avgConsumptionYoung,
          avgConsumptionOld := r.avgConsumptionOld,
          housePrice := r.housePrice, population := r.population,
          housingStock := r.housingStock, incomeMean := r.incomeMean } := rfl

lemma priceIter_fst_length (params : ModelParams) (prices : List ℝ) :
    (priceIter params prices).1.length = prices.length := by
  unfold priceIter
  have key : ∀ (l : List ℕ) (acc : List ℝ × ℝ),
      ((l.foldl (fun st t =>
        (st.1.set t (0.5 * prices.getD t 0 +
          0.5 * proposedPrice params t (prices.getD (t + 1) 0)),
         max st.2 |0.5 * prices.getD t 0 +
          0.5 * proposedPrice params t (prices.getD (t + 1) 0) - prices.getD t 0|))
        acc).1).length = acc.1.length := by
    intro l
    induction l with
    | nil => intro acc; rfl
    | cons a l ih => intro acc; rw [List.foldl_cons, ih]; simp
  rw [key]
  simp

lemma solveLoop_length (params : ModelParams) :
    ∀ (n : ℕ) (prices : List ℝ),
      (solveLoop params n prices).length = prices.length := by
  intro n
  induction n with
  | zero => intro prices; rfl
  | succ n ih =>
    intro prices
    unfold solveLoop
    dsimp only
    split_ifs
    · rw [priceIter_fst_length]
    · rw [ih, priceIter_fst_length]

lemma eqPrices_length (params : ModelParams) :
    (eqPrices params).length = SIMULATION_STEPS := by
  unfold eqPrices initPrices
  rw [solveLoop_length]
  simp

/-- Claim C10: `simulate` always returns exactly three records, with times
`0, 1, 2` and the fixed generation names, while the horizon
(`SIMULATION_STEPS = 10`) and the cross-section size (`AGENTS_COUNT = 1000`)
are hard-coded constants unchanged by every configuration parameter. -/
theorem simulate_shape (p : ModelParams) :
    (simulate p).length = 3 ∧
    ((simulate p).map fun r => r.time) = [0, 1, 2] ∧
    ((simulate p).map fun r => r.name) = ["Boomers", "Millennials", "Gen Alpha"] ∧
    (eqPrices p).length = SIMULATION_STEPS ∧
    (productivities p).length = AGENTS_COUNT ∧
    SIMULATION_STEPS = 10 ∧ AGENTS_COUNT = 1000 := by
  refine ⟨by simp [simulate], ?_, ?_, eqPrices_length p,
    by unfold productivities; rw [List.length_map, List.length_range], rfl, rfl⟩
  · rfl
  · rfl

lemma productivities_length (params : ModelParams) :
    (productivities params).length = AGENTS_COUNT := by
  unfold productivities
  rw [List.length_map, List.length_range]

lemma sortedAgentsAt_length (params : ModelParams) (t : ℕ) (Pnext : ℝ) :
    (sortedAgentsAt params t Pnext).length = AGENTS_COUNT := by
  unfold sortedAgentsAt aggAgents
  rw [(List.perm_insertionSort _ _).length_eq, List.length_map, List.enum_length,
    productivities_length]

lemma aggOwnerCount_eq_range (params : ModelParams) (prices : List ℝ) (t : ℕ) :
    aggOwnerCount params prices t =
      (List.range AGENTS_COUNT).countP fun i : ℕ =>
        decide ((i : ℤ) < housesAvailableAt params t) := by
  unfold aggOwnerCount outcomesAt
  rw [List.countP_map]
  have hcomp : ∀ l : List Agent,
      l.enum.countP ((fun q : Bool × (ℝ × ℝ × ℝ) => q.1) ∘ fun q : ℕ × Agent =>
        ((decide ((q.1 : ℤ) < housesAvailableAt params t) : Bool),
          agentOutcome params.beta (prices.getD t 0) (prices.getD (t + 1) 0)
            (decide ((q.1 : ℤ) < housesAvailableAt params t)) q.2)) =
      (List.range l.length).countP fun i : ℕ => decide ((i : ℤ) < housesAvailableAt params t) := by
    intro l
    rw [← List.enum_map_fst l, List.countP_map]
    rfl
  rw [hcomp, sortedAgentsAt_length]

lemma countP_range_le_toNat (n : ℤ) :
    ∀ M : ℕ, ((List.range M).countP fun i : ℕ => decide ((i : ℤ) < n)) ≤ n.toNat := by
  intro M
  induction M with
  | zero => simp
  | succ M ih =>
    rw [List.range_succ, List.countP_append]
    by_cases h : (M : ℤ) < n
    · have h1 : ((List.range M).countP fun i : ℕ => decide ((i : ℤ) < n)) ≤ M := by
        simpa using List.countP_le_length
          (p := fun i : ℕ => decide ((i : ℤ) < n)) (l := List.range M)
      have h2 : M < n.toNat := by omega
      have hc : (List.countP (fun i : ℕ => decide ((i : ℤ) < n)) [M]) = 1 := by simp [h]
      rw [hc]
      omega
    · have hc : (List.countP (fun i : ℕ => decide ((i : ℤ) < n)) [M]) = 0 := by simp [h]
      rw [hc]
      simpa using ih

lemma countP_range_nonpos (n : ℤ) (hn : n ≤ 0) (M : ℕ) :
    ((List.range M).countP fun i : ℕ => decide ((i : ℤ) < n)) = 0 := by
  rw [List.countP_eq_zero]
  intro a _
  simp only [decide_eq_true_eq]
  omega

/-- Claim C8 (amended): whenever the housing-stock-to-population ratio of the
period is non-negative, the number of households assigned ownership never
exceeds `floor(min(1, H_t/N_t) * AGENTS_COUNT)`; unconditionally — for every
configuration, including ill-posed ones with a negative ratio — it never
exceeds the cross-section size.  (The non-negativity hypothesis on the floor
bound is forced by the counterexample: with a negative ratio the floor is
negative while the count is `0`.) -/
theorem ownerCount_bounds (params : ModelParams) (prices : List ℝ) (t : ℕ) :
    (0 ≤ H_t params t / N_t params t →
      (aggOwnerCount params prices t : ℤ) ≤ housesAvailableAt params t) ∧
      aggOwnerCount params prices t ≤ AGENTS_COUNT := by
  constructor
  · intro h
    have hn : 0 ≤ housesAvailableAt params t := by
      unfold housesAvailableAt availUnits
      apply Int.floor_nonneg.mpr
      have : (0 : ℝ) ≤ min 1 (H_t params t / N_t params t) := le_min (by norm_num) h
      positivity
    rw [aggOwnerCount_eq_range]
    have := countP_range_le_toNat (housesAvailableAt params t) AGENTS_COUNT
    omega
  · rw [aggOwnerCount_eq_range]
    simpa using List.countP_le_length
      (p := fun i : ℕ => decide ((i : ℤ) < housesAvailableAt params t))
      (l := List.range AGENTS_COUNT)

/-- Parameters whose housing ratio is well defined and non-negative,
used by the witness for the amended C8. -/
def paramsW8 : ModelParams := ⟨0, 0, 0, 0, 0, 1, 1, 1⟩

/-- Witness for the amended C8 at a concrete configuration: the embedded
non-negativity hypothesis of the floor bound is discharged at `paramsW8`. -/
theorem ownerCount_bounds_witness :
    ((0 : ℝ) ≤ H_t paramsW8 0 / N_t paramsW8 0 ∧
      (aggOwnerCount paramsW8 (eqPrices paramsW8) 0 : ℤ) ≤ housesAvailableAt paramsW8 0) ∧
      aggOwnerCount paramsW8 (eqPrices paramsW8) 0 ≤ AGENTS_COUNT :=
  ⟨⟨by norm_num [H_t, N_t, paramsW8],
    (ownerCount_bounds paramsW8 (eqPrices paramsW8) 0).1
      (by norm_num [H_t, N_t, paramsW8])⟩,
    (ownerCount_bounds paramsW8 (eqPrices paramsW8) 0).2⟩

/-- Configuration with a negative initial housing stock (parameters are
nowhere validated in the source). -/
def paramsNegH : ModelParams := ⟨0, 0, 0, 0, 0, 1, 1, -1⟩

/-- Counterexample to C8 as stated: with a negative housing stock the floor
bound is `-1000` while the aggregator assigns `0` owners, so the ownership
count strictly exceeds `floor(min(1, H_t/N_t) * AGENTS_COUNT)`. -/
theorem ownerCount_exceeds_floor_counterexample :
    housesAvailableAt paramsNegH 0 <
      (aggOwnerCount paramsNegH (eqPrices paramsNegH) 0 : ℤ) := by
  have hAvail : housesAvailableAt paramsNegH 0 = -1000 := by
    unfold housesAvailableAt availUnits H_t N_t AGENTS_COUNT paramsNegH
    norm_num
  rw [aggOwnerCount_eq_range, hAvail, countP_range_nonpos (-1000) (by norm_num)]
  norm_num

/-- Claim C9: in every result record, when the period has zero owners the
owner-utility mean is the explicit not-applicable sentinel (embedded `none`,
the `NaN` branch of the source's ternary), and likewise the renter-utility
mean when the period has zero renters. -/
theorem avgUtility_sentinel_when_empty (params : ModelParams) (t : ℕ) (h3 : t < 3) :
    (aggOwnerCount params (eqPrices params) t = 0 →
      ((simulate params).getD t dummyResult).avgUtilityOwners = none) ∧
    (aggOwnerCount params (eqPrices params) t = AGENTS_COUNT →
      ((simulate params).getD t dummyResult).avgUtilityRenters = none) := by
  have hget : (simulate params).getD t dummyResult =
      genResult params (eqPrices params) t := by
    unfold simulate
    rw [show List.range 3 = [0, 1, 2] by rfl, List.map_cons, List.map_cons,
      List.map_cons, List.map_nil]
    interval_cases t <;> simp [List.getD]
  rw [hget]
  constructor
  · intro h
    unfold genResult
    dsimp only
    rw [if_neg]
    omega
  · intro h
    unfold genResult
    dsimp only
    rw [if_neg]
    rw [h]
    simp

/-- Configuration with one thousand times more people than houses, so no
household in the cross-section is assigned ownership. -/
def paramsNoOwners : ModelParams := ⟨0, 0, 0, 0, 0, 1, 1000000, 1⟩

lemma paramsNoOwners_count : aggOwnerCount paramsNoOwners (eqPrices paramsNoOwners) 0 = 0 := by
  have hAvail : housesAvailableAt paramsNoOwners 0 = 0 := by
    unfold housesAvailableAt availUnits H_t N_t AGENTS_COUNT paramsNoOwners
    rw [min_eq_right (by norm_num)]
    norm_num
  rw [aggOwnerCount_eq_range, hAvail, countP_range_nonpos 0 (by norm_num)]

/-- Witness for C9: at a concrete configuration with zero owners the reported
owner-utility mean is the sentinel. -/
theorem avgUtility_sentinel_when_empty_witness :
    (0 : ℕ) < 3 ∧
      ((simulate paramsNoOwners).getD 0 dummyResult).avgUtilityOwners = none :=
  ⟨by norm_num,
    (avgUtility_sentinel_when_empty paramsNoOwners 0 (by norm_num)).1 paramsNoOwners_count⟩

/-- Ill-posed configuration: every initial stock and both shape parameters
are negative. -/
def paramsInvalid : ModelParams := ⟨0, 0, 0, -1, -1, -1, -1, -1⟩

/-- Claim C4 (amended): the core performs no configuration validation; for
every ill-posed configuration (`σ ≤ 0`, `β ≤ 0`, or a non-positive initial
technology, population or housing stock) `simulate` still returns the usual
three result records — degenerate values propagate instead of a fail-fast
invalid-configuration error. -/
theorem simulate_no_validation (p : ModelParams)
    (_ill : p.inequality ≤ 0 ∨ p.beta ≤ 0 ∨ p.initialTech ≤ 0 ∨
      p.initialPop ≤ 0 ∨ p.initialHousing ≤ 0) :
    (simulate p).length = 3 := by
  simp [simulate]

/-- Witness for the amended C4 at a concrete ill-posed configuration. -/
theorem simulate_no_validation_witness :
    (paramsInvalid.inequality ≤ 0 ∨ paramsInvalid.beta ≤ 0 ∨
      paramsInvalid.initialTech ≤ 0 ∨ paramsInvalid.initialPop ≤ 0 ∨
      paramsInvalid.initialHousing ≤ 0) ∧
      (simulate paramsInvalid).length = 3 :=
  ⟨Or.inl (by norm_num [paramsInvalid]),
    simulate_no_validation paramsInvalid (Or.inl (by norm_num [paramsInvalid]))⟩

/-- Counterexample to C4 as stated: at an explicit ill-posed configuration
(`σ = -1 ≤ 0`) the core does not reject — it produces the full sequence of
result records. -/
theorem simulate_invalid_config_returns_records :
    paramsInvalid.inequality ≤ 0 ∧ (simulate paramsInvalid).length = 3 :=
  ⟨by norm_num [paramsInvalid], by simp [simulate]⟩

lemma getD_set_self (l : List ℝ) (i : ℕ) (a : ℝ) (h : i < l.length) :
    (l.set i a).getD i 0 = a := by
  simp [List.getD_eq_getElem?_getD, List.getElem?_set_self, h]

lemma getD_set_ne (l : List ℝ) {i j : ℕ} (a : ℝ) (h : i ≠ j) :
    (l.set i a).getD j 0 = l.getD j 0 := by
  simp [List.getD_eq_getElem?_getD, List.getElem?_set_ne h]

/-- The damped update value the solver loop writes at index `t`. -/
def dampedAt (params : ModelParams) (prices : List ℝ) (t : ℕ) : ℝ :=
  0.5 * prices.getD t 0 + 0.5 * proposedPrice params t (prices.getD (t + 1) 0)

/-- The body of the solver loop's inner fold. -/
def iterStep (params : ModelParams) (prices : List ℝ) (st : List ℝ × ℝ) (t : ℕ) :
    List ℝ × ℝ :=
  (st.1.set t (dampedAt params prices t),
    max st.2 |dampedAt params prices t - prices.getD t 0|)

lemma priceIter_eq_fold (params : ModelParams) (prices : List ℝ) :
    priceIter params prices =
      (List.range (SIMULATION_STEPS - 1)).foldl (iterStep params prices)
        (prices.set (SIMULATION_STEPS - 1)
          (prices.getD (SIMULATION_STEPS - 1 - 1) 0 * (1 + params.techGrowthRate)), 0) :=
  rfl

lemma iterFold_fst_length (params : ModelParams) (prices : List ℝ) :
    ∀ (l : List ℕ) (acc : List ℝ × ℝ),
      ((l.foldl (iterStep params prices) acc).1).length = acc.1.length := by
  intro l
  induction l with
  | nil => intro acc; rfl
  | cons a l ih =>
    intro acc
    rw [List.foldl_cons, ih]
    simp [iterStep]

lemma iterFold_getD_not_mem (params : ModelParams) (prices : List ℝ) :
    ∀ (l : List ℕ) (acc : List ℝ × ℝ) (j : ℕ), j ∉ l →
      ((l.foldl (iterStep params prices) acc).1).getD j 0 = acc.1.getD j 0 := by
  intro l
  induction l with
  | nil => intro acc j _; rfl
  | cons a l ih =>
    intro acc j hj
    rw [List.foldl_cons, ih _ _ (fun hm => hj (List.mem_cons_of_mem a hm))]
    exact getD_set_ne _ _ fun h => hj (h ▸ List.mem_cons_self a l)

lemma iterFold_getD_mem (params : ModelParams) (prices : List ℝ) :
    ∀ (l : List ℕ) (acc : List ℝ × ℝ) (j : ℕ), j ∈ l → l.Nodup → j < acc.1.length →
      ((l.foldl (iterStep params prices) acc).1).getD j 0 = dampedAt params prices j := by
  intro l
  induction l with
  | nil => intro acc j hj; exact absurd hj (List.not_mem_nil j)
  | cons a l ih =>
    intro acc j hj hnd hlt
    rcases List.mem_cons.mp hj with rfl | hj'
    · have hnl : j ∉ l := (List.nodup_cons.mp hnd).1
      rw [List.foldl_cons, iterFold_getD_not_mem params prices l _ j hnl]
      exact getD_set_self _ _ _ hlt
    · rw [List.foldl_cons]
      refine ih _ j hj' (List.nodup_cons.mp hnd).2 ?_
      simpa [iterStep] using hlt

lemma priceIter_getD_spec (params : ModelParams) (prices : List ℝ)
    (hlen : prices.length = SIMULATION_STEPS) :
    ((priceIter params prices).1.getD (SIMULATION_STEPS - 1) 0 =
      prices.getD (SIMULATION_STEPS - 1 - 1) 0 * (1 + params.techGrowthRate)) ∧
    ∀ t : ℕ, t < SIMULATION_STEPS - 1 →
      (priceIter params prices).1.getD t 0 = dampedAt params prices t := by
  rw [priceIter_eq_fold]
  constructor
  · rw [iterFold_getD_not_mem params prices _ _ _ (by simp)]
    apply getD_set_self
    rw [hlen]
    simp [SIMULATION_STEPS]
  · intro t ht
    have hmem : t ∈ List.range (SIMULATION_STEPS - 1) := List.mem_range.mpr ht
    rw [iterFold_getD_mem params prices _ _ t hmem (List.nodup_range _)
      (by rw [List.length_set, hlen]; simp [SIMULATION_STEPS] at ht ⊢; omega)]

/-- Claim C5: each outer iteration reads only the input snapshot `prices`:
the terminal entry becomes the prior period's current price times
`1 + techGrowthRate`, and every non-terminal entry becomes half its old value
plus half the clearing price proposed from WTPs computed against the previous
iteration's next-period price. -/
theorem priceIter_update_rule (params : ModelParams) (prices : List ℝ)
    (hlen : prices.length = SIMULATION_STEPS) (t : ℕ) (ht : t < SIMULATION_STEPS - 1) :
    (priceIter params prices).1.getD (SIMULATION_STEPS - 1) 0 =
      prices.getD (SIMULATION_STEPS - 1 - 1) 0 * (1 + params.techGrowthRate) ∧
    (priceIter params prices).1.getD t 0 =
      0.5 * prices.getD t 0 +
        0.5 * proposedPrice params t (prices.getD (t + 1) 0) := by
  obtain ⟨h9, hts⟩ := priceIter_getD_spec params prices hlen
  exact ⟨h9, hts t ht⟩

/-- Witness for C5 at a concrete price vector and period. -/
theorem priceIter_update_rule_witness :
    ((List.replicate 10 (0 : ℝ)).length = SIMULATION_STEPS ∧ 0 < SIMULATION_STEPS - 1) ∧
    ((priceIter paramsW8 (List.replicate 10 (0 : ℝ))).1.getD (SIMULATION_STEPS - 1) 0 =
      (List.replicate 10 (0 : ℝ)).getD (SIMULATION_STEPS - 1 - 1) 0 *
        (1 + paramsW8.techGrowthRate) ∧
    (priceIter paramsW8 (List.replicate 10 (0 : ℝ))).1.getD 0 0 =
      0.5 * (List.replicate 10 (0 : ℝ)).getD 0 0 +
        0.5 * proposedPrice paramsW8 0 ((List.replicate 10 (0 : ℝ)).getD (0 + 1) 0)) :=
  ⟨⟨by simp [SIMULATION_STEPS], by simp [SIMULATION_STEPS]⟩,
    priceIter_update_rule paramsW8 (List.replicate 10 (0 : ℝ))
      (by simp [SIMULATION_STEPS]) 0 (by simp [SIMULATION_STEPS])⟩

instance : IsTotal ℝ fun a b : ℝ => a ≥ b := ⟨fun a b => (le_total b a).imp id id⟩

instance : IsTrans ℝ fun a b : ℝ => a ≥ b := ⟨fun _ _ _ h1 h2 => le_trans h2 h1⟩

instance : IsRefl ℝ fun a b : ℝ => a ≥ b := ⟨fun a => le_refl a⟩

lemma sortDesc_sorted (l : List ℝ) : List.Sorted (fun a b : ℝ => a ≥ b) (sortDesc l) :=
  List.sorted_insertionSort _ l

lemma sortDesc_perm (l : List ℝ) : (sortDesc l).Perm l := List.perm_insertionSort _ l

lemma sortDesc_length (l : List ℝ) : (sortDesc l).length = l.length :=
  (sortDesc_perm l).length_eq

lemma availUnits_le (H N : ℝ) (M : ℕ) :
    availUnits H N M ≤ (M : ℤ) := by
  unfold availUnits
  have h1 : min 1 (H / N) * (M : ℝ) ≤ (M : ℝ) := by
    apply mul_le_of_le_one_left (by positivity)
    exact min_le_left _ _
  calc ⌊min 1 (H / N) * (M : ℝ)⌋ ≤ ⌊(M : ℝ)⌋ := Int.floor_mono h1
    _ = (M : ℤ) := Int.floor_natCast M

lemma availUnits_mono (H1 H2 N : ℝ) (M : ℕ) (hN : 0 < N) (hH : H1 ≤ H2) :
    availUnits H1 N M ≤ availUnits H2 N M := by
  unfold availUnits
  apply Int.floor_mono
  apply mul_le_mul_of_nonneg_right _ (by positivity)
  exact min_le_min (le_refl 1) ((div_le_div_iff_of_pos_right hN).mpr hH)

lemma clearPrice_pos_index (wtps : List ℝ) (k : ℤ) (hk : 1 ≤ k)
    (hkM : k ≤ (wtps.length : ℤ)) :
    clearPrice wtps k = (sortDesc wtps).getD (k - 1).toNat 0 := by
  unfold clearPrice
  rw [if_pos (by omega)]
  dsimp only
  rw [if_neg]
  rw [sortDesc_length]
  omega

/-- Claim C7 (amended): for a fixed cross-section with fixed WTPs and fixed
population, a strict increase of the housing stock makes the clearing price
non-increasing, provided at least one unit is available in the smaller-supply
scenario.  (The proviso is forced by the counterexample: when the smaller
supply yields zero units the rule returns the `0` sentinel and added supply
can strictly raise the price.) -/
theorem clearPrice_antitone_in_supply (wtps : List ℝ) (H1 H2 N : ℝ) (M : ℕ)
    (hlen : wtps.length = M) (hN : 0 < N) (hH12 : H1 < H2)
    (hk1 : 1 ≤ availUnits H1 N M) :
    clearPrice wtps (availUnits H2 N M) ≤ clearPrice wtps (availUnits H1 N M) := by
  have hmono := availUnits_mono H1 H2 N M hN (le_of_lt hH12)
  have hle1 : availUnits H1 N M ≤ (M : ℤ) := availUnits_le H1 N M
  have hle2 : availUnits H2 N M ≤ (M : ℤ) := availUnits_le H2 N M
  rw [clearPrice_pos_index wtps _ hk1 (by rw [hlen]; exact hle1),
    clearPrice_pos_index wtps _ (le_trans hk1 hmono) (by rw [hlen]; exact hle2)]
  have hM1 : 1 ≤ M := by
    have := le_trans hk1 hle1
    omega
  have hi1 : (availUnits H1 N M - 1).toNat < (sortDesc wtps).length := by
    rw [sortDesc_length, hlen]
    omega
  have hi2 : (availUnits H2 N M - 1).toNat < (sortDesc wtps).length := by
    rw [sortDesc_length, hlen]
    omega
  rw [List.getD_eq_getElem?_getD, List.getElem?_eq_getElem hi2,
    List.getD_eq_getElem?_getD, List.getElem?_eq_getElem hi1]
  simp only [Option.getD_some]
  have hidx : ((availUnits H1 N M - 1).toNat : ℕ) ≤ (availUnits H2 N M - 1).toNat := by
    omega
  have := (sortDesc_sorted wtps).rel_get_of_le
    (a := ⟨(availUnits H1 N M - 1).toNat, hi1⟩)
    (b := ⟨(availUnits H2 N M - 1).toNat, hi2⟩) hidx
  simpa [List.get_eq_getElem] using this

/-- Witness for the amended C7 at a concrete WTP list and supplies. -/
theorem clearPrice_antitone_in_supply_witness :
    (([(5 : ℝ)]).length = 1 ∧ (0 : ℝ) < 1 ∧ (1 : ℝ) < 2 ∧
      1 ≤ availUnits 1 1 1) ∧
    clearPrice [(5 : ℝ)] (availUnits 2 1 1) ≤ clearPrice [(5 : ℝ)] (availUnits 1 1 1) :=
  ⟨⟨rfl, by norm_num, by norm_num, by norm_num [availUnits]⟩,
    clearPrice_antitone_in_supply [(5 : ℝ)] 1 2 1 1 rfl (by norm_num) (by norm_num)
      (by norm_num [availUnits])⟩

/-- Counterexample to C7 as stated: with one household of positive WTP,
population `2` and housing stock rising from `1` to `2`, the available-unit
count rises from `0` to `1` and the clearing price strictly increases from the
`0` sentinel to the household's WTP. -/
theorem clearPrice_supply_increase_raises_price :
    (1 : ℝ) < 2 ∧
      clearPrice [(1 : ℝ)] (availUnits 1 2 1) < clearPrice [(1 : ℝ)] (availUnits 2 2 1) := by
  constructor
  · norm_num
  · have h1 : availUnits 1 2 1 = 0 := by
      unfold availUnits
      rw [min_eq_right (by norm_num)]
      norm_num
    have h2 : availUnits 2 2 1 = 1 := by
      unfold availUnits
      norm_num
    have hs : sortDesc [(1 : ℝ)] = [(1 : ℝ)] := rfl
    rw [h1, h2]
    unfold clearPrice
    rw [if_neg (by norm_num), if_pos (by norm_num)]
    dsimp only
    rw [hs]
    norm_num

/-- Claim C1 (amended): the clearing price the market-clearing rule produces
from a period's WTP list is an element of that list whenever the unit count is
positive, and is non-negative whenever all WTPs are; the reported `housePrice`
is instead the damped iterate, which need not equal any recomputed WTP. -/
theorem clearPrice_from_wtps (wtps : List ℝ) (k : ℤ) (hne : wtps ≠ [])
    (hnn : ∀ x ∈ wtps, 0 ≤ x) :
    (0 < k → clearPrice wtps k ∈ wtps) ∧ 0 ≤ clearPrice wtps k := by
  have hlen : 0 < wtps.length := List.length_pos.mpr hne
  have hmem : 0 < k → clearPrice wtps k ∈ wtps := by
    intro hk
    unfold clearPrice
    rw [if_pos hk]
    dsimp only
    have hidxlt : (if ((sortDesc wtps).length : ℤ) ≤ k - 1 then
        ((sortDesc wtps).length : ℤ) - 1 else k - 1).toNat < (sortDesc wtps).length := by
      rw [sortDesc_length]
      rcases le_or_lt ((wtps.length : ℤ)) (k - 1) with h | h
      · rw [if_pos h]
        omega
      · rw [if_neg (not_le.mpr h)]
        omega
    rw [List.getD_eq_getElem?_getD, List.getElem?_eq_getElem hidxlt]
    simp only [Option.getD_some]
    exact (sortDesc_perm wtps).mem_iff.mp (List.getElem_mem hidxlt)
  refine ⟨hmem, ?_⟩
  rcases le_or_lt k 0 with h | h
  · unfold clearPrice
    rw [if_neg (not_lt.mpr h)]
  · exact hnn _ (hmem h)

/-- Witness for the amended C1 at a one-element WTP list. -/
theorem clearPrice_from_wtps_witness :
    (([(5 : ℝ)]) ≠ [] ∧ (∀ x ∈ [(5 : ℝ)], 0 ≤ x) ∧ (0 : ℤ) < 1) ∧
      (clearPrice [(5 : ℝ)] 1 ∈ [(5 : ℝ)] ∧ 0 ≤ clearPrice [(5 : ℝ)] 1) := by
  have h := clearPrice_from_wtps [(5 : ℝ)] 1 (by simp)
    (by intro x hx; rw [List.mem_singleton] at hx; rw [hx]; norm_num)
  exact ⟨⟨by simp, by intro x hx; rw [List.mem_singleton] at hx; rw [hx]; norm_num,
    by norm_num⟩, ⟨h.1 (by norm_num), h.2⟩⟩

lemma log_cond_bigPn (Pn x : ℝ) (hPn : 8192 ≤ Pn) (hx : (1 : ℝ)/2^15 ≤ x) :
    uRent 1 1 < Real.log x + Real.log Pn + ALPHA := by
  have hu : uRent 1 1 = Real.log (1/2) + Real.log (1/2) := by
    unfold uRent sRent
    norm_num
  have hlhalf : Real.log ((1 : ℝ)/2) = -Real.log 2 := by
    rw [one_div, Real.log_inv]
  have h1 : Real.log ((1 : ℝ)/2^15) ≤ Real.log x :=
    Real.log_le_log (by norm_num) hx
  have h1e : Real.log ((1 : ℝ)/2^15) = -(15 * Real.log 2) := by
    rw [one_div, Real.log_inv, Real.log_pow]
    norm_num
  have h2 : Real.log (8192 : ℝ) ≤ Real.log Pn :=
    Real.log_le_log (by norm_num) hPn
  have h2e : Real.log (8192 : ℝ) = 13 * Real.log 2 := by
    rw [show (8192 : ℝ) = 2^(13 : ℕ) by norm_num, Real.log_pow]
    norm_num
  rw [hu, hlhalf]
  unfold ALPHA
  rw [h1e] at h1
  rw [h2e] at h2
  linarith

lemma wtpStep_allTrue (Pn c : ℝ) (hPn : 8192 ≤ Pn) (hc1 : c ≤ 1)
    (hc : (1 : ℝ)/2^14 ≤ c) :
    wtpStep 1 Pn 1 (uRent 1 1) (1 - c, 1, 1 - c) = (1 - c/2, 1, 1 - c/2) := by
  have hcpos : (0 : ℝ) < c := by
    have : (0 : ℝ) < 1/2^14 := by norm_num
    linarith
  unfold wtpStep
  dsimp only
  have hs0 : (1 * (1 - (1 - c + 1) / 2) - Pn) / (1 + 1) < 0 := by
    have h1 : 1 * (1 - (1 - c + 1) / 2) - Pn = c/2 - Pn := by ring
    rw [h1]
    apply div_neg_of_neg_of_pos _ (by norm_num)
    linarith
  rw [if_pos hs0]
  have hfeas : ¬(1 - (1 - c + 1) / 2 - 0 ≤ 0) := by
    have h1 : 1 - (1 - c + 1) / 2 - 0 = c/2 := by ring
    rw [h1]
    push_neg
    linarith
  rw [if_neg hfeas]
  have hcond : uRent 1 1 <
      Real.log (1 - (1 - c + 1) / 2 - 0) + 1 * Real.log (0 + Pn) + ALPHA := by
    have h1 : 1 - (1 - c + 1) / 2 - 0 = c/2 := by ring
    rw [h1, zero_add, one_mul]
    exact log_cond_bigPn Pn (c/2) hPn (by linarith)
  rw [if_pos hcond]
  rw [show (1 - c + 1) / 2 = 1 - c/2 from by ring]

lemma wtpIter_zero (beta Pnext y urent : ℝ) (st : ℝ × ℝ × ℝ) :
    wtpIter beta Pnext y urent 0 st = st := rfl

lemma wtpIter_succ (beta Pnext y urent : ℝ) (n : ℕ) (st : ℝ × ℝ × ℝ) :
    wtpIter beta Pnext y urent (n + 1) st =
      wtpIter beta Pnext y urent n (wtpStep beta Pnext y urent st) := rfl

lemma wtpIter_allTrue (Pn : ℝ) (hPn : 8192 ≤ Pn) :
    ∀ (n : ℕ) (c : ℝ), c ≤ 1 → (1 : ℝ)/2^15 * 2^n ≤ c →
      wtpIter 1 Pn 1 (uRent 1 1) n (1 - c, 1, 1 - c) =
        (1 - c/2^n, 1, 1 - c/2^n) := by
  intro n
  induction n with
  | zero =>
    intro c hc1 hc
    rw [wtpIter_zero]
    norm_num
  | succ n ih =>
    intro c hc1 hc
    have hpow : (2 : ℝ)^(n + 1) = 2^n * 2 := by rw [pow_succ]
    have h2n : (2 : ℝ) ≤ 2^(n + 1) := by
      calc (2 : ℝ) = 2^(1 : ℕ) := by norm_num
        _ ≤ 2^(n + 1) := by
          apply pow_le_pow_right₀ (by norm_num)
          omega
    have hc14 : (1 : ℝ)/2^14 ≤ c := by
      have : (1 : ℝ)/2^15 * 2 ≤ 1/2^15 * 2^(n + 1) :=
        mul_le_mul_of_nonneg_left h2n (by norm_num)
      have h214 : (1 : ℝ)/2^15 * 2 = 1/2^14 := by norm_num
      linarith
    rw [wtpIter_succ, wtpStep_allTrue Pn c hPn hc1 hc14]
    have hhalf : (1 : ℝ)/2^15 * 2^n ≤ c/2 := by
      rw [hpow] at hc
      linarith
    rw [ih (c/2) (by linarith) hhalf]
    rw [show c/2/2^n = c/2^(n + 1) from by rw [hpow]; ring]

lemma wtpSolve_one_bigPn (Pn : ℝ) (hPn : 8192 ≤ Pn) :
    wtpSolve 1 Pn 1 = 32767/32768 := by
  unfold wtpSolve
  have h0 : ((0 : ℝ), (1 : ℝ), (0 : ℝ)) = (1 - 1, 1, 1 - 1) := by norm_num
  rw [h0, wtpIter_allTrue Pn hPn 15 1 (le_refl 1) (by norm_num)]
  norm_num

lemma getD_replicate (x : ℝ) {n i : ℕ} (h : i < n) :
    (List.replicate n x).getD i 0 = x := by
  rw [List.getD_eq_getElem?_getD, List.getElem?_replicate]
  simp [h]

/-- A price vector with one value on periods `0..8` and another on period `9`,
the shape preserved by the solver loop at the degenerate configuration used in
the C1 counterexample. -/
def mkvec (a b : ℝ) : List ℝ := List.replicate 9 a ++ [b]

lemma mkvec_length (a b : ℝ) : (mkvec a b).length = 10 := by simp [mkvec]

lemma mkvec_getD_lt (a b : ℝ) {t : ℕ} (h : t < 9) : (mkvec a b).getD t 0 = a := by
  unfold mkvec
  rw [List.getD_append _ _ _ _ (by simp [h])]
  exact getD_replicate a h

lemma mkvec_getD_nine (a b : ℝ) : (mkvec a b).getD 9 0 = b := by
  unfold mkvec
  rw [List.getD_append_right _ _ _ _ (by simp)]
  simp

/-- Degenerate configuration used for the C1 counterexample: `σ = 0`,
`β = 1`, `A₀ = 1`, all growth rates `0`, and an astronomically large initial
population and housing stock (`N₀ = H₀ = 10·2⁴⁰`), so the heuristic seed price
`A₀·N₀·0.1 = 2⁴⁰` stays enormous for all twenty damped iterations. -/
def paramsC1 : ModelParams := ⟨0, 0, 0, 0, 1, 1, 10 * 2^40, 10 * 2^40⟩

lemma A_t_paramsC1 (t : ℕ) : A_t paramsC1 t = 1 := by
  unfold A_t paramsC1
  norm_num

lemma productivities_const (params : ModelParams) (h : params.inequality = 0) :
    productivities params = List.replicate AGENTS_COUNT 1 := by
  unfold productivities
  refine List.eq_replicate_iff.mpr ⟨by rw [List.length_map, List.length_range], ?_⟩
  intro b hb
  rcases List.mem_map.mp hb with ⟨i, _, rfl⟩
  rw [h, zero_mul, Real.exp_zero]

lemma housesAvailableAt_paramsC1 (t : ℕ) : housesAvailableAt paramsC1 t = 1000 := by
  unfold housesAvailableAt availUnits H_t N_t paramsC1 AGENTS_COUNT
  norm_num

lemma wtpsAt_paramsC1 (t : ℕ) (Pn : ℝ) (hPn : 8192 ≤ Pn) :
    wtpsAt paramsC1 t Pn = List.replicate AGENTS_COUNT (32767/32768) := by
  unfold wtpsAt
  rw [productivities_const paramsC1 rfl, List.map_replicate]
  have h1 : A_t paramsC1 t * 1 = 1 := by rw [A_t_paramsC1]; ring
  rw [h1]
  rw [show paramsC1.beta = 1 from rfl, wtpSolve_one_bigPn Pn hPn]

lemma clearPrice_replicate (n : ℕ) (hn : 0 < n) (x : ℝ) :
    clearPrice (List.replicate n x) (n : ℤ) = x := by
  unfold clearPrice
  rw [if_pos (by exact_mod_cast hn)]
  dsimp only
  have hs : sortDesc (List.replicate n x) = List.replicate n x :=
    List.Sorted.insertionSort_eq (List.pairwise_replicate.mpr (Or.inr (le_refl x)))
  rw [hs, List.length_replicate]
  rw [if_neg (by omega)]
  exact getD_replicate x (by omega)

lemma proposedPrice_paramsC1 (t : ℕ) (Pn : ℝ) (hPn : 8192 ≤ Pn) :
    proposedPrice paramsC1 t Pn = 32767/32768 := by
  unfold proposedPrice
  rw [wtpsAt_paramsC1 t Pn hPn, housesAvailableAt_paramsC1]
  rw [show (1000 : ℤ) = ((AGENTS_COUNT : ℕ) : ℤ) from by norm_num [AGENTS_COUNT]]
  exact clearPrice_replicate AGENTS_COUNT (by norm_num [AGENTS_COUNT]) _

lemma getD_eq_get (l : List ℝ) (n : ℕ) (h : n < l.length) :
    l.getD n 0 = l.get ⟨n, h⟩ := by
  rw [List.getD_eq_getElem?_getD, List.getElem?_eq_getElem h]
  simp [List.get_eq_getElem]

lemma dampedAt_mkvec (a b : ℝ) (ha : 8192 ≤ a) (hb : 8192 ≤ b) (t : ℕ) (ht : t < 9) :
    dampedAt paramsC1 (mkvec a b) t = 0.5 * a + 0.5 * (32767/32768) := by
  unfold dampedAt
  rw [mkvec_getD_lt a b ht]
  rcases lt_or_ge (t + 1) 9 with h | h
  · rw [mkvec_getD_lt a b h, proposedPrice_paramsC1 t a ha]
  · have h9 : t + 1 = 9 := by omega
    rw [h9, mkvec_getD_nine, proposedPrice_paramsC1 t b hb]

lemma iterFold_snd_const (params : ModelParams) (prices : List ℝ) (d : ℝ) :
    ∀ l : List ℕ, (∀ t ∈ l, |dampedAt params prices t - prices.getD t 0| = d) →
      ∀ acc : List ℝ × ℝ, l ≠ [] →
        (l.foldl (iterStep params prices) acc).2 = max acc.2 d := by
  intro l
  induction l with
  | nil => intro _ acc hne; exact absurd rfl hne
  | cons t l ih =>
    intro h acc _
    rw [List.foldl_cons]
    rcases eq_or_ne l [] with rfl | hl
    · rw [List.foldl_nil]
      show max acc.2 _ = _
      rw [h t (List.mem_cons_self t _)]
    · rw [ih (fun x hx => h x (List.mem_cons_of_mem t hx)) _ hl]
      show max (max acc.2 _) d = _
      rw [h t (List.mem_cons_self t _), max_assoc, max_self]

lemma priceIter_mkvec (a b : ℝ) (ha : 8192 ≤ a) (hb : 8192 ≤ b) :
    priceIter paramsC1 (mkvec a b) =
      (mkvec (0.5 * a + 0.5 * (32767/32768)) a, (a - 32767/32768)/2) := by
  have hlen : (mkvec a b).length = SIMULATION_STEPS := by
    rw [mkvec_length]
    rfl
  obtain ⟨h9, hts⟩ := priceIter_getD_spec paramsC1 (mkvec a b) hlen
  have habs : ∀ t ∈ List.range (SIMULATION_STEPS - 1),
      |dampedAt paramsC1 (mkvec a b) t - (mkvec a b).getD t 0| =
        (a - 32767/32768)/2 := by
    intro t ht
    have ht9 : t < 9 := by simpa [SIMULATION_STEPS] using List.mem_range.mp ht
    rw [dampedAt_mkvec a b ha hb t ht9, mkvec_getD_lt a b ht9]
    rw [show 0.5 * a + 0.5 * (32767/32768) - a = -((a - 32767/32768)/2) from by ring,
      abs_neg, abs_of_nonneg (by norm_num; linarith)]
  refine Prod.ext ?_ ?_
  · apply List.ext_get
    · rw [priceIter_fst_length, mkvec_length, mkvec_length]
    · intro n h1 h2
      rw [priceIter_fst_length, mkvec_length] at h1
      rw [mkvec_length] at h2
      rw [← getD_eq_get _ _ _, ← getD_eq_get _ _ _]
      rcases lt_or_ge n 9 with hn | hn
      · rw [mkvec_getD_lt _ _ hn,
          hts n (by simpa [SIMULATION_STEPS] using hn),
          dampedAt_mkvec a b ha hb n hn]
      · have hn9 : n = 9 := by omega
        subst hn9
        rw [mkvec_getD_nine]
        have h9s : (9 : ℕ) = SIMULATION_STEPS - 1 := rfl
        rw [h9s, h9, ← h9s]
        rw [show (9 : ℕ) - 1 = 8 from rfl, mkvec_getD_lt a b (by norm_num)]
        rw [show paramsC1.techGrowthRate = 0 from rfl]
        ring
  · rw [priceIter_eq_fold]
    show (_ : List ℝ × ℝ).2 = _
    rw [iterFold_snd_const paramsC1 (mkvec a b) _ _ habs _ (by simp [SIMULATION_STEPS])]
    rw [max_eq_right]
    norm_num
    linarith

lemma solveLoop_zero (params : ModelParams) (prices : List ℝ) :
    solveLoop params 0 prices = prices := rfl

lemma solveLoop_succ (params : ModelParams) (n : ℕ) (prices : List ℝ) :
    solveLoop params (n + 1) prices =
      if (priceIter params prices).2 < 0.01 then (priceIter params prices).1
      else solveLoop params n (priceIter params prices).1 := rfl

lemma solveLoop_mkvec : ∀ (n : ℕ) (a b : ℝ),
    (8192 : ℝ) * 2^n ≤ a - 32767/32768 → 8192 ≤ b →
    solveLoop paramsC1 (n + 1) (mkvec a b) =
      mkvec (32767/32768 + (a - 32767/32768)/2^(n + 1))
        (32767/32768 + (a - 32767/32768)/2^n) := by
  intro n
  induction n with
  | zero =>
    intro a b ha hb
    norm_num at ha
    have ha8 : (8192 : ℝ) ≤ a := by linarith
    rw [solveLoop_succ, priceIter_mkvec a b ha8 hb]
    rw [if_neg (by push_neg; linarith)]
    rw [solveLoop_zero]
    have e1 : 32767/32768 + (a - 32767/32768)/2^(0 + 1) =
        (0.5 * a + 0.5 * (32767/32768) : ℝ) := by
      rw [show (2 : ℝ)^(0 + 1) = 2 from by norm_num]
      ring
    have e2 : 32767/32768 + (a - 32767/32768)/2^(0 : ℕ) = a := by
      rw [pow_zero]
      ring
    rw [e1, e2]
  | succ n ih =>
    intro a b ha hb
    have h2n : (1 : ℝ) ≤ 2^(n + 1) := one_le_pow₀ (by norm_num)
    have haw : (8192 : ℝ) ≤ a - 32767/32768 := by nlinarith
    have ha8 : (8192 : ℝ) ≤ a := by linarith
    rw [solveLoop_succ, priceIter_mkvec a b ha8 hb]
    rw [if_neg (by push_neg; linarith)]
    have hpow : (2 : ℝ)^(n + 1) = 2^n * 2 := pow_succ 2 n
    have ha' : (8192 : ℝ) * 2^n ≤ (0.5 * a + 0.5 * (32767/32768)) - 32767/32768 := by
      have he : (0.5 * a + 0.5 * (32767/32768)) - 32767/32768 =
          (a - 32767/32768)/2 := by ring
      rw [he]
      rw [hpow] at ha
      linarith
    rw [ih _ a ha' ha8]
    have e1 : 32767/32768 + ((0.5 * a + 0.5 * (32767/32768) : ℝ) - 32767/32768)/2^(n + 1) =
        32767/32768 + (a - 32767/32768)/2^(n + 1 + 1) := by
      rw [show (2 : ℝ)^(n + 1 + 1) = 2^(n + 1) * 2 from pow_succ 2 (n + 1)]
      ring
    have e2 : 32767/32768 + ((0.5 * a + 0.5 * (32767/32768) : ℝ) - 32767/32768)/2^n =
        32767/32768 + (a - 32767/32768)/2^(n + 1) := by
      rw [show (2 : ℝ)^(n + 1) = 2^n * 2 from pow_succ 2 n]
      ring
    rw [e1, e2]

lemma eqPrices_paramsC1 :
    eqPrices paramsC1 =
      mkvec (32767/32768 + ((2 : ℝ)^40 - 32767/32768)/2^20)
        (32767/32768 + ((2 : ℝ)^40 - 32767/32768)/2^19) := by
  unfold eqPrices initPrices MAX_ITER SIMULATION_STEPS
  have hv : paramsC1.initialTech * paramsC1.initialPop * 0.1 = (2 : ℝ)^40 := by
    show (1 : ℝ) * (10 * 2^40) * 0.1 = 2^40
    norm_num
  rw [hv, show List.replicate 10 ((2 : ℝ)^40) = mkvec ((2 : ℝ)^40) ((2 : ℝ)^40) from
    List.replicate_succ' 9 ((2 : ℝ)^40)]
  rw [show (20 : ℕ) = 19 + 1 from rfl]
  exact solveLoop_mkvec 19 _ _ (by norm_num) (by norm_num)

/-- The aggregator's recomputed realized-WTP list for reported period `t`
(the `wtp` fields of the agents it rebuilds against the converged
next-period price). -/
def aggWtpList (params : ModelParams) (prices : List ℝ) (t : ℕ) : List ℝ :=
  (aggAgents params t (prices.getD (t + 1) 0)).map Agent.wtp

lemma aggWtpList_eq_wtpsAt (params : ModelParams) (prices : List ℝ) (t : ℕ) :
    aggWtpList params prices t = wtpsAt params t (prices.getD (t + 1) 0) := by
  unfold aggWtpList aggAgents wtpsAt
  rw [List.map_map]
  have h : (Agent.wtp ∘ fun q : ℕ × ℝ =>
      ({ i := q.1, y := A_t params t * q.2,
         wtp := wtpSolve params.beta (prices.getD (t + 1) 0) (A_t params t * q.2),
         urent := uRent params.beta (A_t params t * q.2) } : Agent)) =
      (fun a : ℝ => wtpSolve params.beta (prices.getD (t + 1) 0) (A_t params t * a)) ∘
        Prod.snd := rfl
  rw [h, ← List.map_map, List.enum_map_snd]

lemma simulate_getD_eq (params : ModelParams) (t : ℕ) (h : t < 3) :
    (simulate params).getD t dummyResult = genResult params (eqPrices params) t := by
  unfold simulate
  rw [show List.range 3 = [0, 1, 2] from rfl, List.map_cons, List.map_cons,
    List.map_cons, List.map_nil]
  interval_cases t <;> simp [List.getD]

/-- Counterexample to C1 as stated: at the degenerate configuration
`paramsC1` the reported `housePrice` of generation 0 — the damped iterate
`32767/32768 + (2⁴⁰ - 32767/32768)/2²⁰` — is not an element of the realized
WTP multiset recomputed by the aggregator, which is one thousand copies of
`32767/32768`. -/
theorem housePrice_not_in_recomputed_wtps :
    ((simulate paramsC1).getD 0 dummyResult).housePrice ∉
      aggWtpList paramsC1 (eqPrices paramsC1) 0 := by
  intro hmem
  rw [simulate_getD_eq paramsC1 0 (by norm_num)] at hmem
  have hhp : (genResult paramsC1 (eqPrices paramsC1) 0).housePrice =
      (eqPrices paramsC1).getD 0 0 := rfl
  rw [hhp, aggWtpList_eq_wtpsAt, eqPrices_paramsC1] at hmem
  rw [mkvec_getD_lt _ _ (by norm_num), mkvec_getD_lt _ _ (by norm_num)] at hmem
  rw [wtpsAt_paramsC1 0 _ (by norm_num)] at hmem
  have heq := List.eq_of_mem_replicate hmem
  norm_num at heq

lemma wtpStep_corner_true (y low high w : ℝ) (hy : 0 < y)
    (hlt : y - (low + high)/2 < 1) (hpos : 0 < y - (low + high)/2)
    (hcmp : y^2 < 4 * (y - (low + high)/2) * 2.7182818283) :
    wtpStep 1 1 y (uRent 1 y) (low, high, w) =
      ((low + high)/2, high, (low + high)/2) := by
  unfold wtpStep
  dsimp only
  have hs0 : (1 * (y - (low + high)/2) - 1) / (1 + 1) < 0 := by
    rw [show 1 * (y - (low + high)/2) - 1 = (y - (low + high)/2) - 1 from by ring]
    apply div_neg_of_neg_of_pos _ (by norm_num)
    linarith
  rw [if_pos hs0]
  have hfeas : ¬(y - (low + high)/2 - 0 ≤ 0) := by
    push_neg
    linarith
  rw [if_neg hfeas]
  have hur : uRent 1 y = Real.log (y/2) + Real.log (y/2) := by
    unfold uRent sRent
    rw [show y - 1 * y / (1 + 1) = y/2 from by ring,
      show (1 : ℝ) * y / (1 + 1) = y/2 from by ring, one_mul]
  have hcond : uRent 1 y <
      Real.log (y - (low + high)/2 - 0) + 1 * Real.log (0 + 1) + ALPHA := by
    rw [show y - (low + high)/2 - 0 = y - (low + high)/2 from by ring,
      show ((0 : ℝ) + 1) = 1 from by norm_num, Real.log_one, mul_zero, add_zero]
    unfold ALPHA
    rw [hur]
    have he := Real.exp_one_gt_d9
    have h1 : 2.7182818283 * (y - (low + high)/2) <
        Real.exp 1 * (y - (low + high)/2) := mul_lt_mul_of_pos_right he hpos
    have key : (y/2)^2 < Real.exp 1 * (y - (low + high)/2) := by nlinarith
    have hl : Real.log ((y/2)^2) <
        Real.log (Real.exp 1 * (y - (low + high)/2)) :=
      Real.log_lt_log (by positivity) key
    rw [Real.log_mul (Real.exp_ne_zero 1) (ne_of_gt hpos), Real.log_exp,
      Real.log_pow] at hl
    push_cast at hl
    linarith
  rw [if_pos hcond]

lemma wtpStep_corner_false (y low high w : ℝ) (_hy : 0 < y)
    (hlt : y - (low + high)/2 < 1) (hpos : 0 < y - (low + high)/2)
    (hcmp : 4 * (y - (low + high)/2) * 2.7182818286 < y^2) :
    wtpStep 1 1 y (uRent 1 y) (low, high, w) =
      (low, (low + high)/2, w) := by
  unfold wtpStep
  dsimp only
  have hs0 : (1 * (y - (low + high)/2) - 1) / (1 + 1) < 0 := by
    rw [show 1 * (y - (low + high)/2) - 1 = (y - (low + high)/2) - 1 from by ring]
    apply div_neg_of_neg_of_pos _ (by norm_num)
    linarith
  rw [if_pos hs0]
  have hfeas : ¬(y - (low + high)/2 - 0 ≤ 0) := by
    push_neg
    linarith
  rw [if_neg hfeas]
  have hur : uRent 1 y = Real.log (y/2) + Real.log (y/2) := by
    unfold uRent sRent
    rw [show y - 1 * y / (1 + 1) = y/2 from by ring,
      show (1 : ℝ) * y / (1 + 1) = y/2 from by ring, one_mul]
  have hcond : ¬(uRent 1 y <
      Real.log (y - (low + high)/2 - 0) + 1 * Real.log (0 + 1) + ALPHA) := by
    rw [show y - (low + high)/2 - 0 = y - (low + high)/2 from by ring,
      show ((0 : ℝ) + 1) = 1 from by norm_num, Real.log_one, mul_zero, add_zero]
    unfold ALPHA
    rw [hur]
    push_neg
    have he := Real.exp_one_lt_d9
    have h1 : Real.exp 1 * (y - (low + high)/2) <
        2.7182818286 * (y - (low + high)/2) := mul_lt_mul_of_pos_right he hpos
    have key : Real.exp 1 * (y - (low + high)/2) < (y/2)^2 := by nlinarith
    have hl : Real.log (Real.exp 1 * (y - (low + high)/2)) <
        Real.log ((y/2)^2) :=
      Real.log_lt_log (by positivity) key
    rw [Real.log_mul (Real.exp_ne_zero 1) (ne_of_gt hpos), Real.log_exp,
      Real.log_pow] at hl
    push_cast at hl
    linarith
  rw [if_neg hcond]

lemma wtpSolve_y2_trace : wtpSolve 1 1 (54319/100000) = 1691004789/3276800000 := by
  unfold wtpSolve
  have s1 : wtpStep 1 1 (54319/100000) (uRent 1 (54319/100000)) (0, (54319/100000), 0) =
      ((54319/200000), (54319/100000), (54319/200000)) := by
    rw [wtpStep_corner_true (54319/100000) 0 (54319/100000) 0 (by norm_num)
      (by norm_num) (by norm_num) (by norm_num)]
    norm_num
  have s2 : wtpStep 1 1 (54319/100000) (uRent 1 (54319/100000)) ((54319/200000), (54319/100000), (54319/200000)) =
      ((162957/400000), (54319/100000), (162957/400000)) := by
    rw [wtpStep_corner_true (54319/100000) (54319/200000) (54319/100000) (54319/200000) (by norm_num)
      (by norm_num) (by norm_num) (by norm_num)]
    norm_num
  have s3 : wtpStep 1 1 (54319/100000) (uRent 1 (54319/100000)) ((162957/400000), (54319/100000), (162957/400000)) =
      ((380233/800000), (54319/100000), (380233/800000)) := by
    rw [wtpStep_corner_true (54319/100000) (162957/400000) (54319/100000) (162957/400000) (by norm_num)
      (by norm_num) (by norm_num) (by norm_num)]
    norm_num
  have s4 : wtpStep 1 1 (54319/100000) (uRent 1 (54319/100000)) ((380233/800000), (54319/100000), (380233/800000)) =
      ((162957/320000), (54319/100000), (162957/320000)) := by
    rw [wtpStep_corner_true (54319/100000) (380233/800000) (54319/100000) (380233/800000) (by norm_num)
      (by norm_num) (by norm_num) (by norm_num)]
    norm_num
  have s5 : wtpStep 1 1 (54319/100000) (uRent 1 (54319/100000)) ((162957/320000), (54319/100000), (162957/320000)) =
      ((162957/320000), (1683889/3200000), (162957/320000)) := by
    rw [wtpStep_corner_false (54319/100000) (162957/320000) (54319/100000) (162957/320000) (by norm_num)
      (by norm_num) (by norm_num) (by norm_num)]
    norm_num
  have s6 : wtpStep 1 1 (54319/100000) (uRent 1 (54319/100000)) ((162957/320000), (1683889/3200000), (162957/320000)) =
      ((162957/320000), (3313459/6400000), (162957/320000)) := by
    rw [wtpStep_corner_false (54319/100000) (162957/320000) (1683889/3200000) (162957/320000) (by norm_num)
      (by norm_num) (by norm_num) (by norm_num)]
    norm_num
  have s7 : wtpStep 1 1 (54319/100000) (uRent 1 (54319/100000)) ((162957/320000), (3313459/6400000), (162957/320000)) =
      ((6572599/12800000), (3313459/6400000), (6572599/12800000)) := by
    rw [wtpStep_corner_true (54319/100000) (162957/320000) (3313459/6400000) (162957/320000) (by norm_num)
      (by norm_num) (by norm_num) (by norm_num)]
    norm_num
  have s8 : wtpStep 1 1 (54319/100000) (uRent 1 (54319/100000)) ((6572599/12800000), (3313459/6400000), (6572599/12800000)) =
      ((13199517/25600000), (3313459/6400000), (13199517/25600000)) := by
    rw [wtpStep_corner_true (54319/100000) (6572599/12800000) (3313459/6400000) (6572599/12800000) (by norm_num)
      (by norm_num) (by norm_num) (by norm_num)]
    norm_num
  have s9 : wtpStep 1 1 (54319/100000) (uRent 1 (54319/100000)) ((13199517/25600000), (3313459/6400000), (13199517/25600000)) =
      ((13199517/25600000), (26453353/51200000), (13199517/25600000)) := by
    rw [wtpStep_corner_false (54319/100000) (13199517/25600000) (3313459/6400000) (13199517/25600000) (by norm_num)
      (by norm_num) (by norm_num) (by norm_num)]
    norm_num
  have s10 : wtpStep 1 1 (54319/100000) (uRent 1 (54319/100000)) ((13199517/25600000), (26453353/51200000), (13199517/25600000)) =
      ((13199517/25600000), (52852387/102400000), (13199517/25600000)) := by
    rw [wtpStep_corner_false (54319/100000) (13199517/25600000) (26453353/51200000) (13199517/25600000) (by norm_num)
      (by norm_num) (by norm_num) (by norm_num)]
    norm_num
  have s11 : wtpStep 1 1 (54319/100000) (uRent 1 (54319/100000)) ((13199517/25600000), (52852387/102400000), (13199517/25600000)) =
      ((21130091/40960000), (52852387/102400000), (21130091/40960000)) := by
    rw [wtpStep_corner_true (54319/100000) (13199517/25600000) (52852387/102400000) (13199517/25600000) (by norm_num)
      (by norm_num) (by norm_num) (by norm_num)]
    norm_num
  have s12 : wtpStep 1 1 (54319/100000) (uRent 1 (54319/100000)) ((21130091/40960000), (52852387/102400000), (21130091/40960000)) =
      ((211355229/409600000), (52852387/102400000), (211355229/409600000)) := by
    rw [wtpStep_corner_true (54319/100000) (21130091/40960000) (52852387/102400000) (21130091/40960000) (by norm_num)
      (by norm_num) (by norm_num) (by norm_num)]
    norm_num
  have s13 : wtpStep 1 1 (54319/100000) (uRent 1 (54319/100000)) ((211355229/409600000), (52852387/102400000), (211355229/409600000)) =
      ((211355229/409600000), (422764777/819200000), (211355229/409600000)) := by
    rw [wtpStep_corner_false (54319/100000) (211355229/409600000) (52852387/102400000) (211355229/409600000) (by norm_num)
      (by norm_num) (by norm_num) (by norm_num)]
    norm_num
  have s14 : wtpStep 1 1 (54319/100000) (uRent 1 (54319/100000)) ((211355229/409600000), (422764777/819200000), (211355229/409600000)) =
      ((169095047/327680000), (422764777/819200000), (169095047/327680000)) := by
    rw [wtpStep_corner_true (54319/100000) (211355229/409600000) (422764777/819200000) (211355229/409600000) (by norm_num)
      (by norm_num) (by norm_num) (by norm_num)]
    norm_num
  have s15 : wtpStep 1 1 (54319/100000) (uRent 1 (54319/100000)) ((169095047/327680000), (422764777/819200000), (169095047/327680000)) =
      ((1691004789/3276800000), (422764777/819200000), (1691004789/3276800000)) := by
    rw [wtpStep_corner_true (54319/100000) (169095047/327680000) (422764777/819200000) (169095047/327680000) (by norm_num)
      (by norm_num) (by norm_num) (by norm_num)]
    norm_num
  rw [show (15 : ℕ) = 14 + 1 from rfl, wtpIter_succ, s1]
  rw [show (14 : ℕ) = 13 + 1 from rfl, wtpIter_succ, s2]
  rw [show (13 : ℕ) = 12 + 1 from rfl, wtpIter_succ, s3]
  rw [show (12 : ℕ) = 11 + 1 from rfl, wtpIter_succ, s4]
  rw [show (11 : ℕ) = 10 + 1 from rfl, wtpIter_succ, s5]
  rw [show (10 : ℕ) = 9 + 1 from rfl, wtpIter_succ, s6]
  rw [show (9 : ℕ) = 8 + 1 from rfl, wtpIter_succ, s7]
  rw [show (8 : ℕ) = 7 + 1 from rfl, wtpIter_succ, s8]
  rw [show (7 : ℕ) = 6 + 1 from rfl, wtpIter_succ, s9]
  rw [show (6 : ℕ) = 5 + 1 from rfl, wtpIter_succ, s10]
  rw [show (5 : ℕ) = 4 + 1 from rfl, wtpIter_succ, s11]
  rw [show (4 : ℕ) = 3 + 1 from rfl, wtpIter_succ, s12]
  rw [show (3 : ℕ) = 2 + 1 from rfl, wtpIter_succ, s13]
  rw [show (2 : ℕ) = 1 + 1 from rfl, wtpIter_succ, s14]
  rw [show (1 : ℕ) = 0 + 1 from rfl, wtpIter_succ, s15]
  rw [wtpIter_zero]

lemma wtpSolve_y1_trace : wtpSolve 1 1 (271597/500000) = 845481461/1638400000 := by
  unfold wtpSolve
  have s1 : wtpStep 1 1 (271597/500000) (uRent 1 (271597/500000)) (0, (271597/500000), 0) =
      ((271597/1000000), (271597/500000), (271597/1000000)) := by
    rw [wtpStep_corner_true (271597/500000) 0 (271597/500000) 0 (by norm_num)
      (by norm_num) (by norm_num) (by norm_num)]
    norm_num
  have s2 : wtpStep 1 1 (271597/500000) (uRent 1 (271597/500000)) ((271597/1000000), (271597/500000), (271597/1000000)) =
      ((814791/2000000), (271597/500000), (814791/2000000)) := by
    rw [wtpStep_corner_true (271597/500000) (271597/1000000) (271597/500000) (271597/1000000) (by norm_num)
      (by norm_num) (by norm_num) (by norm_num)]
    norm_num
  have s3 : wtpStep 1 1 (271597/500000) (uRent 1 (271597/500000)) ((814791/2000000), (271597/500000), (814791/2000000)) =
      ((1901179/4000000), (271597/500000), (1901179/4000000)) := by
    rw [wtpStep_corner_true (271597/500000) (814791/2000000) (271597/500000) (814791/2000000) (by norm_num)
      (by norm_num) (by norm_num) (by norm_num)]
    norm_num
  have s4 : wtpStep 1 1 (271597/500000) (uRent 1 (271597/500000)) ((1901179/4000000), (271597/500000), (1901179/4000000)) =
      ((814791/1600000), (271597/500000), (814791/1600000)) := by
    rw [wtpStep_corner_true (271597/500000) (1901179/4000000) (271597/500000) (1901179/4000000) (by norm_num)
      (by norm_num) (by norm_num) (by norm_num)]
    norm_num
  have s5 : wtpStep 1 1 (271597/500000) (uRent 1 (271597/500000)) ((814791/1600000), (271597/500000), (814791/1600000)) =
      ((814791/1600000), (8419507/16000000), (814791/1600000)) := by
    rw [wtpStep_corner_false (271597/500000) (814791/1600000) (271597/500000) (814791/1600000) (by norm_num)
      (by norm_num) (by norm_num) (by norm_num)]
    norm_num
  have s6 : wtpStep 1 1 (271597/500000) (uRent 1 (271597/500000)) ((814791/1600000), (8419507/16000000), (814791/1600000)) =
      ((814791/1600000), (16567417/32000000), (814791/1600000)) := by
    rw [wtpStep_corner_false (271597/500000) (814791/1600000) (8419507/16000000) (814791/1600000) (by norm_num)
      (by norm_num) (by norm_num) (by norm_num)]
    norm_num
  have s7 : wtpStep 1 1 (271597/500000) (uRent 1 (271597/500000)) ((814791/1600000), (16567417/32000000), (814791/1600000)) =
      ((32863237/64000000), (16567417/32000000), (32863237/64000000)) := by
    rw [wtpStep_corner_true (271597/500000) (814791/1600000) (16567417/32000000) (814791/1600000) (by norm_num)
      (by norm_num) (by norm_num) (by norm_num)]
    norm_num
  have s8 : wtpStep 1 1 (271597/500000) (uRent 1 (271597/500000)) ((32863237/64000000), (16567417/32000000), (32863237/64000000)) =
      ((65998071/128000000), (16567417/32000000), (65998071/128000000)) := by
    rw [wtpStep_corner_true (271597/500000) (32863237/64000000) (16567417/32000000) (32863237/64000000) (by norm_num)
      (by norm_num) (by norm_num) (by norm_num)]
    norm_num
  have s9 : wtpStep 1 1 (271597/500000) (uRent 1 (271597/500000)) ((65998071/128000000), (16567417/32000000), (65998071/128000000)) =
      ((65998071/128000000), (132267739/256000000), (65998071/128000000)) := by
    rw [wtpStep_corner_false (271597/500000) (65998071/128000000) (16567417/32000000) (65998071/128000000) (by norm_num)
      (by norm_num) (by norm_num) (by norm_num)]
    norm_num
  have s10 : wtpStep 1 1 (271597/500000) (uRent 1 (271597/500000)) ((65998071/128000000), (132267739/256000000), (65998071/128000000)) =
      ((65998071/128000000), (264263881/512000000), (65998071/128000000)) := by
    rw [wtpStep_corner_false (271597/500000) (65998071/128000000) (132267739/256000000) (65998071/128000000) (by norm_num)
      (by norm_num) (by norm_num) (by norm_num)]
    norm_num
  have s11 : wtpStep 1 1 (271597/500000) (uRent 1 (271597/500000)) ((65998071/128000000), (264263881/512000000), (65998071/128000000)) =
      ((105651233/204800000), (264263881/512000000), (105651233/204800000)) := by
    rw [wtpStep_corner_true (271597/500000) (65998071/128000000) (264263881/512000000) (65998071/128000000) (by norm_num)
      (by norm_num) (by norm_num) (by norm_num)]
    norm_num
  have s12 : wtpStep 1 1 (271597/500000) (uRent 1 (271597/500000)) ((105651233/204800000), (264263881/512000000), (105651233/204800000)) =
      ((1056783927/2048000000), (264263881/512000000), (1056783927/2048000000)) := by
    rw [wtpStep_corner_true (271597/500000) (105651233/204800000) (264263881/512000000) (105651233/204800000) (by norm_num)
      (by norm_num) (by norm_num) (by norm_num)]
    norm_num
  have s13 : wtpStep 1 1 (271597/500000) (uRent 1 (271597/500000)) ((1056783927/2048000000), (264263881/512000000), (1056783927/2048000000)) =
      ((1056783927/2048000000), (2113839451/4096000000), (1056783927/2048000000)) := by
    rw [wtpStep_corner_false (271597/500000) (1056783927/2048000000) (264263881/512000000) (1056783927/2048000000) (by norm_num)
      (by norm_num) (by norm_num) (by norm_num)]
    norm_num
  have s14 : wtpStep 1 1 (271597/500000) (uRent 1 (271597/500000)) ((1056783927/2048000000), (2113839451/4096000000), (1056783927/2048000000)) =
      ((845481461/1638400000), (2113839451/4096000000), (845481461/1638400000)) := by
    rw [wtpStep_corner_true (271597/500000) (1056783927/2048000000) (2113839451/4096000000) (1056783927/2048000000) (by norm_num)
      (by norm_num) (by norm_num) (by norm_num)]
    norm_num
  have s15 : wtpStep 1 1 (271597/500000) (uRent 1 (271597/500000)) ((845481461/1638400000), (2113839451/4096000000), (845481461/1638400000)) =
      ((845481461/1638400000), (8455086207/16384000000), (845481461/1638400000)) := by
    rw [wtpStep_corner_false (271597/500000) (845481461/1638400000) (2113839451/4096000000) (845481461/1638400000) (by norm_num)
      (by norm_num) (by norm_num) (by norm_num)]
    norm_num
  rw [show (15 : ℕ) = 14 + 1 from rfl, wtpIter_succ, s1]
  rw [show (14 : ℕ) = 13 + 1 from rfl, wtpIter_succ, s2]
  rw [show (13 : ℕ) = 12 + 1 from rfl, wtpIter_succ, s3]
  rw [show (12 : ℕ) = 11 + 1 from rfl, wtpIter_succ, s4]
  rw [show (11 : ℕ) = 10 + 1 from rfl, wtpIter_succ, s5]
  rw [show (10 : ℕ) = 9 + 1 from rfl, wtpIter_succ, s6]
  rw [show (9 : ℕ) = 8 + 1 from rfl, wtpIter_succ, s7]
  rw [show (8 : ℕ) = 7 + 1 from rfl, wtpIter_succ, s8]
  rw [show (7 : ℕ) = 6 + 1 from rfl, wtpIter_succ, s9]
  rw [show (6 : ℕ) = 5 + 1 from rfl, wtpIter_succ, s10]
  rw [show (5 : ℕ) = 4 + 1 from rfl, wtpIter_succ, s11]
  rw [show (4 : ℕ) = 3 + 1 from rfl, wtpIter_succ, s12]
  rw [show (3 : ℕ) = 2 + 1 from rfl, wtpIter_succ, s13]
  rw [show (2 : ℕ) = 1 + 1 from rfl, wtpIter_succ, s14]
  rw [show (1 : ℕ) = 0 + 1 from rfl, wtpIter_succ, s15]
  rw [wtpIter_zero]

/-- Counterexample to C6 as stated: with `beta = 1` and next-period price `1`,
the incomes `y2 = 0.543190 < y1 = 0.543194` straddle a bisection grid point,
and the 15-step solver returns `WTP(y1) = y1*31130/32768 < WTP(y2) =
y2*31131/32768`, violating exact monotonicity of WTP in income. -/
theorem wtpSolve_not_income_monotone :
    (0 : ℝ) < 54319/100000 ∧ (54319/100000 : ℝ) < 271597/500000 ∧
      wtpSolve 1 1 (271597/500000) < wtpSolve 1 1 (54319/100000) := by
  refine ⟨by norm_num, by norm_num, ?_⟩
  rw [wtpSolve_y1_trace, wtpSolve_y2_trace]
  norm_num

/-- The clipped optimal savings of a prospective owner at trial price `P`,
as computed inside the bisection loop body. -/
def ownSavings (beta Pnext y P : ℝ) : ℝ :=
  if (beta * (y - P) - Pnext) / (1 + beta) < 0 then 0
  else (beta * (y - P) - Pnext) / (1 + beta)

/-- The bisection loop body's success condition at trial price `P`: buying at
`P` is feasible and strictly beats renting. -/
def ownPred (beta Pnext y P : ℝ) : Prop :=
  0 < y - P - ownSavings beta Pnext y P ∧
    uRent beta y < Real.log (y - P - ownSavings beta Pnext y P) +
      beta * Real.log (ownSavings beta Pnext y P + Pnext) + ALPHA

lemma wtpStep_eq_of_pred {beta Pnext y low high w : ℝ}
    (h : ownPred beta Pnext y ((low + high) / 2)) :
    wtpStep beta Pnext y (uRent beta y) (low, high, w) =
      ((low + high) / 2, high, (low + high) / 2) := by
  obtain ⟨h1, h2⟩ := h
  unfold ownSavings at h1 h2
  unfold wtpStep
  dsimp only
  rw [if_neg (not_le.mpr h1), if_pos h2]

lemma wtpStep_eq_of_not_pred {beta Pnext y low high w : ℝ}
    (h : ¬ownPred beta Pnext y ((low + high) / 2)) :
    wtpStep beta Pnext y (uRent beta y) (low, high, w) =
      (low, (low + high) / 2, w) := by
  unfold ownPred ownSavings at h
  unfold wtpStep
  dsimp only
  by_cases hf : y - (low + high) / 2 -
      (if (beta * (y - (low + high) / 2) - Pnext) / (1 + beta) < 0 then 0
        else (beta * (y - (low + high) / 2) - Pnext) / (1 + beta)) ≤ 0
  · rw [if_pos hf]
  · rw [if_neg hf, if_neg fun hb => h ⟨not_le.mp hf, hb⟩]

lemma ownPred_not_at_y (beta Pnext y : ℝ) : ¬ownPred beta Pnext y y := by
  rintro ⟨h1, _⟩
  unfold ownSavings at h1
  split_ifs at h1 with hs
  · linarith
  · push_neg at hs
    linarith

/-- Invariant of the bisection state: the success condition holds at `low`
(unless `low` is still the initial `0`), fails at `high`, the accumulator
equals `low`, and the bracket width is `g`. -/
def BracketInv (beta Pnext y g : ℝ) (st : ℝ × ℝ × ℝ) : Prop :=
  (ownPred beta Pnext y st.1 ∨ st.1 = 0) ∧ ¬ownPred beta Pnext y st.2.1 ∧
    st.2.2 = st.1 ∧ st.2.1 - st.1 = g

lemma wtpStep_bracketInv {beta Pnext y g : ℝ} {st : ℝ × ℝ × ℝ}
    (h : BracketInv beta Pnext y g st) :
    BracketInv beta Pnext y (g / 2) (wtpStep beta Pnext y (uRent beta y) st) := by
  obtain ⟨low, high, w⟩ := st
  obtain ⟨hl, hh, hw, hg⟩ := h
  simp only at hl hh hw hg
  by_cases hP : ownPred beta Pnext y ((low + high) / 2)
  · rw [wtpStep_eq_of_pred hP]
    exact ⟨Or.inl hP, hh, rfl, by dsimp only; linarith⟩
  · rw [wtpStep_eq_of_not_pred hP]
    exact ⟨hl, hP, hw, by dsimp only; linarith⟩

lemma wtpIter_bracketInv (beta Pnext y : ℝ) :
    ∀ (n : ℕ) (g : ℝ) (st : ℝ × ℝ × ℝ), BracketInv beta Pnext y g st →
      BracketInv beta Pnext y (g / 2 ^ n) (wtpIter beta Pnext y (uRent beta y) n st) := by
  intro n
  induction n with
  | zero =>
    intro g st h
    rw [wtpIter_zero]
    simpa using h
  | succ n ih =>
    intro g st h
    rw [wtpIter_succ]
    have h2 := ih (g / 2) _ (wtpStep_bracketInv h)
    rw [show g / 2 / 2 ^ n = g / 2 ^ (n + 1) from by rw [pow_succ]; ring] at h2
    exact h2

lemma wtpSolve_bracket (beta Pnext y : ℝ) :
    (ownPred beta Pnext y (wtpSolve beta Pnext y) ∨ wtpSolve beta Pnext y = 0) ∧
      ¬ownPred beta Pnext y (wtpSolve beta Pnext y + y / 2 ^ 15) := by
  have h0 : BracketInv beta Pnext y y (0, y, 0) :=
    ⟨Or.inr rfl, ownPred_not_at_y beta Pnext y, rfl, by dsimp only; ring⟩
  have hf := wtpIter_bracketInv beta Pnext y 15 y (0, y, 0) h0
  obtain ⟨hl, hh, hw, hg⟩ := hf
  unfold wtpSolve
  rw [hw]
  refine ⟨hl, ?_⟩
  have he : (wtpIter beta Pnext y (uRent beta y) 15 (0, y, 0)).1 + y / 2 ^ 15 =
      (wtpIter beta Pnext y (uRent beta y) 15 (0, y, 0)).2.1 := by linarith
  rw [he]
  exact hh

lemma ownSavings_nonneg (beta Pnext y P : ℝ) : 0 ≤ ownSavings beta Pnext y P := by
  unfold ownSavings
  split_ifs with h
  · exact le_refl 0
  · exact not_lt.mp h

lemma s0_num_neg {beta Pnext y P : ℝ} (hb : 0 < beta)
    (h : (beta * (y - P) - Pnext) / (1 + beta) < 0) :
    beta * (y - P) - Pnext < 0 := by
  by_contra hx
  push_neg at hx
  exact absurd (div_nonneg hx (by linarith)) (not_le.mpr h)

lemma s0_num_nonneg {beta Pnext y P : ℝ} (hb : 0 < beta)
    (h : ¬(beta * (y - P) - Pnext) / (1 + beta) < 0) :
    0 ≤ beta * (y - P) - Pnext := by
  push_neg at h
  by_contra hx
  push_neg at hx
  have h1b : (0 : ℝ) < 1 + beta := by linarith
  have := div_neg_of_neg_of_pos hx h1b
  linarith

lemma ownPred_antitone (beta Pnext y : ℝ) (hb : 0 < beta) (hPn : 0 < Pnext)
    {P1 P2 : ℝ} (h12 : P1 ≤ P2) (h : ownPred beta Pnext y P2) :
    ownPred beta Pnext y P1 := by
  have h1b : (0 : ℝ) < 1 + beta := by linarith
  obtain ⟨h1, h2⟩ := h
  have hco2 : 0 < ownSavings beta Pnext y P2 + Pnext :=
    add_pos_of_nonneg_of_pos (ownSavings_nonneg beta Pnext y P2) hPn
  have hcy : y - P2 - ownSavings beta Pnext y P2 ≤ y - P1 - ownSavings beta Pnext y P1 ∧
      ownSavings beta Pnext y P2 + Pnext ≤ ownSavings beta Pnext y P1 + Pnext := by
    unfold ownSavings
    split_ifs with hA hB hB
    · exact ⟨by linarith, by linarith⟩
    · have hn2 := s0_num_neg hb hA
      have hn1 := s0_num_nonneg hb hB
      constructor
      · rw [show y - P1 - (beta * (y - P1) - Pnext) / (1 + beta) =
          (y - P1 + Pnext) / (1 + beta) from by field_simp; ring]
        rw [sub_zero, le_div_iff₀ h1b]
        nlinarith
      · have h0 : 0 ≤ (beta * (y - P1) - Pnext) / (1 + beta) := not_lt.mp hB
        linarith
    · exfalso
      have hn2 := s0_num_nonneg hb hA
      have hn1 := s0_num_neg hb hB
      nlinarith
    · have hn2 := s0_num_nonneg hb hA
      have hn1 := s0_num_nonneg hb hB
      constructor
      · rw [show y - P1 - (beta * (y - P1) - Pnext) / (1 + beta) =
          (y - P1 + Pnext) / (1 + beta) from by field_simp; ring,
          show y - P2 - (beta * (y - P2) - Pnext) / (1 + beta) =
          (y - P2 + Pnext) / (1 + beta) from by field_simp; ring]
        apply (div_le_div_iff_of_pos_right h1b).mpr
        linarith
      · apply add_le_add_right
        apply (div_le_div_iff_of_pos_right h1b).mpr
        nlinarith
  obtain ⟨hcy1, hco1⟩ := hcy
  have hfeas1 : 0 < y - P1 - ownSavings beta Pnext y P1 := lt_of_lt_of_le h1 hcy1
  refine ⟨hfeas1, lt_of_lt_of_le h2 ?_⟩
  have hL1 : Real.log (y - P2 - ownSavings beta Pnext y P2) ≤
      Real.log (y - P1 - ownSavings beta Pnext y P1) := Real.log_le_log h1 hcy1
  have hL2 : Real.log (ownSavings beta Pnext y P2 + Pnext) ≤
      Real.log (ownSavings beta Pnext y P1 + Pnext) := Real.log_le_log hco2 hco1
  have hL2' := mul_le_mul_of_nonneg_left hL2 (le_of_lt hb)
  linarith

lemma uRent_eq (beta y : ℝ) (hb : 0 < beta) (hy : 0 < y) :
    uRent beta y = (1 + beta) * Real.log y +
      (beta * Real.log beta - (1 + beta) * Real.log (1 + beta)) := by
  have h1b : (0 : ℝ) < 1 + beta := by linarith
  unfold uRent sRent
  rw [show y - beta * y / (1 + beta) = y / (1 + beta) from by field_simp; ring]
  rw [Real.log_div (ne_of_gt hy) (ne_of_gt h1b),
    Real.log_div (ne_of_gt (by positivity : (0 : ℝ) < beta * y)) (ne_of_gt h1b),
    Real.log_mul (ne_of_gt hb) (ne_of_gt hy)]
  ring

lemma interior_cy_eq (beta Pnext y P : ℝ) (hb : 0 < beta) :
    y - P - (beta * (y - P) - Pnext) / (1 + beta) = (y - P + Pnext) / (1 + beta) := by
  have h1b : (0 : ℝ) < 1 + beta := by linarith
  field_simp
  ring

lemma interior_co_eq (beta Pnext y P : ℝ) (hb : 0 < beta) :
    (beta * (y - P) - Pnext) / (1 + beta) + Pnext =
      beta * ((y - P + Pnext) / (1 + beta)) := by
  have h1b : (0 : ℝ) < 1 + beta := by linarith
  field_simp
  ring

lemma ownPred_corner_iff (beta Pnext y P : ℝ)
    (hs : (beta * (y - P) - Pnext) / (1 + beta) < 0) :
    ownPred beta Pnext y P ↔
      (0 < y - P ∧
        uRent beta y < Real.log (y - P) + beta * Real.log Pnext + 1) := by
  unfold ownPred ownSavings
  rw [if_pos hs, sub_zero, zero_add]
  simp only [ALPHA]

lemma ownPred_interior_iff (beta Pnext y P : ℝ) (hb : 0 < beta) (hy : 0 < y)
    (hs : ¬(beta * (y - P) - Pnext) / (1 + beta) < 0) (hnum : 0 < y - P + Pnext) :
    ownPred beta Pnext y P ↔
      (1 + beta) * Real.log y < (1 + beta) * Real.log (y - P + Pnext) + 1 := by
  have h1b : (0 : ℝ) < 1 + beta := by linarith
  unfold ownPred ownSavings
  rw [if_neg hs, interior_cy_eq beta Pnext y P hb, interior_co_eq beta Pnext y P hb]
  have hcy : (0 : ℝ) < (y - P + Pnext) / (1 + beta) := by positivity
  rw [Real.log_mul (ne_of_gt hb) (ne_of_gt hcy),
    Real.log_div (ne_of_gt hnum) (ne_of_gt h1b),
    uRent_eq beta y hb hy]
  simp only [ALPHA]
  constructor
  · rintro ⟨_, h2⟩
    linarith
  · intro h2
    exact ⟨hcy, by linarith⟩

lemma logSub_mono (P beta : ℝ) (hb : 0 < beta) {a b : ℝ} (h0a : 0 < a)
    (hPa : P < a) (hab : a ≤ b) (hslope : beta * b ≤ (1 + beta) * P) :
    Real.log (a - P) - (1 + beta) * Real.log a ≤
      Real.log (b - P) - (1 + beta) * Real.log b := by
  have h1b : (0 : ℝ) < 1 + beta := by linarith
  have hder : ∀ y ∈ Set.Icc a b, HasDerivAt (fun z : ℝ =>
      Real.log (z - P) - (1 + beta) * Real.log z)
      (1 / (y - P) - (1 + beta) * y⁻¹) y := by
    intro y hy
    have hyP : 0 < y - P := by have := hy.1; linarith
    have hy0 : 0 < y := by have := hy.1; linarith
    have hd1 : HasDerivAt (fun z : ℝ => Real.log (z - P)) (1 / (y - P)) y := by
      have h := ((hasDerivAt_id y).sub_const P).log (ne_of_gt hyP)
      simpa using h
    have hd2 : HasDerivAt (fun z : ℝ => (1 + beta) * Real.log z)
        ((1 + beta) * y⁻¹) y :=
      (Real.hasDerivAt_log (ne_of_gt hy0)).const_mul (1 + beta)
    exact hd1.sub hd2
  have hmono : MonotoneOn (fun z : ℝ =>
      Real.log (z - P) - (1 + beta) * Real.log z) (Set.Icc a b) := by
    apply monotoneOn_of_deriv_nonneg (convex_Icc a b)
    · intro y hy
      exact (hder y hy).differentiableAt.continuousAt.continuousWithinAt
    · intro y hy
      rw [interior_Icc] at hy
      exact (hder y (Set.mem_Icc_of_Ioo hy)).differentiableAt.differentiableWithinAt
    · intro y hy
      rw [interior_Icc] at hy
      rw [(hder y (Set.mem_Icc_of_Ioo hy)).deriv]
      have hyP : 0 < y - P := by have := hy.1; linarith
      have hy0 : 0 < y := by have := hy.1; linarith
      have hby : beta * y ≤ beta * b :=
        mul_le_mul_of_nonneg_left (le_of_lt hy.2) (le_of_lt hb)
      have hkey : (1 + beta) * (y - P) ≤ y := by nlinarith
      rw [sub_nonneg, show (1 + beta) * y⁻¹ = (1 + beta) / y from by ring]
      rw [div_le_div_iff₀ hy0 hyP]
      nlinarith
  exact hmono (Set.left_mem_Icc.mpr hab) (Set.right_mem_Icc.mpr hab) hab

lemma ratio_log_mono (P Pnext : ℝ) {a b : ℝ} (ha : 0 < a) (hab : a ≤ b)
    (hPPn : Pnext ≤ P) (hnum : 0 < a - P + Pnext) :
    Real.log (a - P + Pnext) - Real.log a ≤
      Real.log (b - P + Pnext) - Real.log b := by
  have hb0 : 0 < b := lt_of_lt_of_le ha hab
  have hnumb : 0 < b - P + Pnext := by linarith
  rw [← Real.log_div (ne_of_gt hnum) (ne_of_gt ha),
    ← Real.log_div (ne_of_gt hnumb) (ne_of_gt hb0)]
  apply Real.log_le_log (div_pos hnum ha)
  rw [div_le_div_iff₀ ha hb0]
  nlinarith [mul_nonneg (sub_nonneg.mpr hab) (sub_nonneg.mpr hPPn)]

lemma ownPred_mono_y (beta Pnext : ℝ) (hb : 0 < beta) (hPn : 0 < Pnext)
    {P y1 y2 : ℝ} (hy2 : 0 < y2) (h12 : y2 ≤ y1)
    (h : ownPred beta Pnext y2 P) : ownPred beta Pnext y1 P := by
  have h1b : (0 : ℝ) < 1 + beta := by linarith
  have hy1 : 0 < y1 := lt_of_lt_of_le hy2 h12
  by_cases hs1 : (beta * (y1 - P) - Pnext) / (1 + beta) < 0
  · have hn1 := s0_num_neg hb hs1
    have hs2 : (beta * (y2 - P) - Pnext) / (1 + beta) < 0 := by
      have hnum : beta * (y2 - P) - Pnext < 0 := by nlinarith
      exact div_neg_of_neg_of_pos hnum h1b
    obtain ⟨hf2, hm2⟩ := (ownPred_corner_iff beta Pnext y2 P hs2).mp h
    have hf1 : (0 : ℝ) < y1 - P := by linarith
    rw [ownPred_corner_iff beta Pnext y1 P hs1]
    refine ⟨hf1, ?_⟩
    rcases le_or_lt (beta * y1) ((1 + beta) * P) with hcase | hcase
    · have hF := logSub_mono P beta hb hy2 (by linarith) h12 hcase
      rw [uRent_eq beta y1 hb hy1]
      rw [uRent_eq beta y2 hb hy2] at hm2
      ring_nf at hm2 hF ⊢
      linarith
    · have hb1 : 0 < beta * (y1 - P) := mul_pos hb hf1
      have hlg : Real.log (beta * (y1 - P)) < Real.log Pnext :=
        Real.log_lt_log hb1 (by linarith)
      rw [Real.log_mul (ne_of_gt hb) (ne_of_gt hf1)] at hlg
      have harg : y1 ≤ (1 + beta) * (y1 - P) := by nlinarith
      have hlog2 : Real.log y1 ≤ Real.log ((1 + beta) * (y1 - P)) :=
        Real.log_le_log hy1 harg
      rw [Real.log_mul (ne_of_gt h1b) (ne_of_gt hf1)] at hlog2
      rw [uRent_eq beta y1 hb hy1]
      have f1 := mul_le_mul_of_nonneg_left hlog2 (le_of_lt h1b)
      have f2 := mul_lt_mul_of_pos_left hlg hb
      ring_nf at f1 f2 ⊢
      linarith
  · have hn1 := s0_num_nonneg hb hs1
    have hf1 : 0 < y1 - P := by nlinarith
    have hnum1 : 0 < y1 - P + Pnext := by linarith
    rw [ownPred_interior_iff beta Pnext y1 P hb hy1 hs1 hnum1]
    rcases le_or_lt P Pnext with hPPn | hPPn
    · have hlog := Real.log_le_log hy1 (by linarith : y1 ≤ y1 - P + Pnext)
      have := mul_le_mul_of_nonneg_left hlog (le_of_lt h1b)
      linarith
    · by_cases hs2 : (beta * (y2 - P) - Pnext) / (1 + beta) < 0
      · obtain ⟨hf2, hm2⟩ := (ownPred_corner_iff beta Pnext y2 P hs2).mp h
        have hn2 := s0_num_neg hb hs2
        have hP0 : 0 < P := lt_trans hPn hPPn
        have hys0 : 0 < P + Pnext / beta := by
          have := div_pos hPn hb
          linarith
        have hy2s : y2 ≤ P + Pnext / beta := by
          have h1 : y2 - P < Pnext / beta := by
            rw [lt_div_iff₀ hb]
            nlinarith
          linarith
        have hsy1 : P + Pnext / beta ≤ y1 := by
          have h1 : Pnext / beta ≤ y1 - P := by
            rw [div_le_iff₀ hb]
            nlinarith
          linarith
        have hslope : beta * (P + Pnext / beta) ≤ (1 + beta) * P := by
          rw [show beta * (P + Pnext / beta) = beta * P + Pnext from by
            field_simp; ring]
          nlinarith
        have hF := logSub_mono P beta hb hy2 (by linarith) hy2s hslope
        rw [uRent_eq beta y2 hb hy2] at hm2
        have hyslog : Real.log (P + Pnext / beta - P) =
            Real.log Pnext - Real.log beta := by
          rw [show P + Pnext / beta - P = Pnext / beta from by ring,
            Real.log_div (ne_of_gt hPn) (ne_of_gt hb)]
        have hysnum : 0 < P + Pnext / beta - P + Pnext := by
          rw [show P + Pnext / beta - P + Pnext = Pnext / beta + Pnext from by ring]
          positivity
        have hysarg : Real.log (P + Pnext / beta - P + Pnext) =
            Real.log Pnext + Real.log (1 + beta) - Real.log beta := by
          rw [show P + Pnext / beta - P + Pnext = Pnext * (1 + beta) / beta from by
            field_simp; ring]
          rw [Real.log_div (ne_of_gt (by positivity)) (ne_of_gt hb),
            Real.log_mul (ne_of_gt hPn) (ne_of_gt h1b)]
        have hysargM : (1 + beta) * Real.log (P + Pnext / beta - P + Pnext) =
            (1 + beta) * (Real.log Pnext + Real.log (1 + beta) - Real.log beta) := by
          rw [hysarg]
        have hratio := ratio_log_mono P Pnext hys0 hsy1 (le_of_lt hPPn) hysnum
        have hmul := mul_le_mul_of_nonneg_left hratio (le_of_lt h1b)
        ring_nf at hm2 hF hyslog hysargM hmul ⊢
        linarith
      · have hn2 := s0_num_nonneg hb hs2
        have hf2 : 0 < y2 - P := by nlinarith
        have hnum2 : 0 < y2 - P + Pnext := by linarith
        have hm2 := (ownPred_interior_iff beta Pnext y2 P hb hy2 hs2 hnum2).mp h
        have hratio := ratio_log_mono P Pnext hy2 h12 (le_of_lt hPPn) hnum2
        have hmul := mul_le_mul_of_nonneg_left hratio (le_of_lt h1b)
        ring_nf at hm2 hmul ⊢
        linarith

/-- Claim C6 (amended): for `beta > 0`, a positive common next-period price
and incomes `y1 > y2 > 0`, the bisection solver's WTP is monotone in income up
to one bisection grid step: `WTP(y1) ≥ WTP(y2) - y1/2^15`.  (The slack is
forced by the counterexample: the 15-step bisection quantizes WTP to a grid of
width `y/2^15`, and incomes straddling a grid point can violate exact
monotonicity by less than one step.) -/
theorem wtpSolve_income_monotone_upto_grid (beta Pnext y1 y2 : ℝ)
    (hb : 0 < beta) (hPn : 0 < Pnext) (hy2 : 0 < y2) (h12 : y2 < y1) :
    wtpSolve beta Pnext y2 ≤ wtpSolve beta Pnext y1 + y1 / 2 ^ 15 := by
  obtain ⟨hl2, _⟩ := wtpSolve_bracket beta Pnext y2
  obtain ⟨_, hh1⟩ := wtpSolve_bracket beta Pnext y1
  rcases hl2 with hpred2 | hzero2
  · have hpred1 := ownPred_mono_y beta Pnext hb hPn hy2 (le_of_lt h12) hpred2
    by_contra hcon
    push_neg at hcon
    exact hh1 (ownPred_antitone beta Pnext y1 hb hPn (le_of_lt hcon) hpred1)
  · rw [hzero2]
    have hr1 := wtpIter_bisectInv beta Pnext y1 (uRent beta y1) 15 (0, y1, 0)
      ⟨le_refl 0, by show (0 : ℝ) ≤ y1; linarith, by show y1 ≤ y1; exact le_refl y1,
        rfl⟩
    obtain ⟨hbi0, hbi1, hbi2, hbi3⟩ := hr1
    have hw1nn : 0 ≤ wtpSolve beta Pnext y1 := by
      unfold wtpSolve
      rw [hbi3]
      exact hbi0
    have hpos : (0 : ℝ) < y1 / 2 ^ 15 :=
      div_pos (by linarith) (by positivity)
    linarith

/-- Witness for the amended C6 at `beta = 1`, `Pnext = 1`, `y1 = 2`, `y2 = 1`. -/
theorem wtpSolve_income_monotone_upto_grid_witness :
    ((0 : ℝ) < 1 ∧ (0 : ℝ) < 1 ∧ (0 : ℝ) < 1 ∧ (1 : ℝ) < 2) ∧
      wtpSolve 1 1 1 ≤ wtpSolve 1 1 2 + 2 / 2 ^ 15 :=
  ⟨⟨by norm_num, by norm_num, by norm_num, by norm_num⟩,
    wtpSolve_income_monotone_upto_grid 1 1 2 1 (by norm_num) (by norm_num)
      (by norm_num) (by norm_num)⟩

end

end InelasticHousing

